import Mathlib

/-!
Verification of the self-built JSON-RPC protocol runtime of this repository:
the newline framer, the request dispatchers of the three stdio servers
(the Jira server `src/mcp/jira/index.js`, the legacy Jira server
`src/unnamed/part_000`, the Confluence server `src/unnamed/part_001`),
the TTL response cache, the document normalizer and the search strategy
chain.  JavaScript strings are embedded as `List Char`; external builtins
and libraries (`JSON.parse`, `JSON.stringify`, `encodeURIComponent`, the
`html-to-text` library's `convert`) are oracle parameters; the HTTPS
backend is an oracle together with an explicit count or log of the calls
made to it.
-/

set_option maxHeartbeats 1000000
set_option maxRecDepth 100000

/-- Whitespace as JavaScript's `\s` / `String.prototype.trim` see it
(space, tab, line terminators, and the Unicode space separators). -/
def isJsWs (c : Char) : Bool :=
  c = ' ' || c = '\t' || c = '\n' || c = '\r' ||
  c = '\x0b' || c = '\x0c' ||
  c = '\u00A0' || c = '\u1680' ||
  (0x2000 ≤ c.toNat && c.toNat ≤ 0x200A) ||
  c = '\u2028' || c = '\u2029' || c = '\u202F' || c = '\u205F' ||
  c = '\u3000' || c = '\uFEFF'

/-- A line is blank exactly when `line.trim()` is falsy in JavaScript,
i.e. when every character is whitespace. -/
def isBlank (l : List Char) : Bool := l.all isJsWs

/-- Embedding of JavaScript `s.split('\n')`: the non-empty list of
newline-free fragments of `s`. -/
def splitNl : List Char → List (List Char)
  | [] => [[]]
  | c :: cs =>
    if c = '\n' then [] :: splitNl cs
    else
      match splitNl cs with
      | [] => [[c]]
      | p :: ps => (c :: p) :: ps

/-- Last element of a fragment list, `[]` for the empty list (matches
`lines.pop() || ''` on the result of a split, which is never empty). -/
def lastD : List (List Char) → List Char
  | [] => []
  | [l] => l
  | _ :: l :: ls => lastD (l :: ls)

/-- One `data` event of the buffered framer of `src/mcp/jira/index.js`
(lines 777-782) and of the Confluence server (part_001 lines 1397-1402):
`buffer += data; const lines = buffer.split('\n'); buffer = lines.pop() || ''`.
Returns the popped-off prior fragments (raw, in order) and the new buffer. -/
def framerStep (buffer chunk : List Char) : List (List Char) × List Char :=
  ((splitNl (buffer ++ chunk)).dropLast, lastD (splitNl (buffer ++ chunk)))

/-- The candidate messages the dispatch loop actually processes: the framed
lines with blank lines skipped (`if (!line.trim()) continue`). -/
def emitted (rawLines : List (List Char)) : List (List Char) :=
  rawLines.filter (fun l => !isBlank l)

/-- Feeding a sequence of chunks to the buffered framer, collecting the
candidate messages emitted to the dispatch loop and the final buffer. -/
def feedChunks (buffer : List Char) : List (List Char) → List (List Char) × List Char
  | [] => ([], buffer)
  | c :: cs =>
    (emitted (framerStep buffer c).1 ++ (feedChunks (framerStep buffer c).2 cs).1,
     (feedChunks (framerStep buffer c).2 cs).2)

def trimLead (s : List Char) : List Char := s.dropWhile isJsWs

/-- Embedding of JavaScript `s.trim()`. -/
def trimChars (s : List Char) : List Char :=
  ((trimLead s).reverse.dropWhile isJsWs).reverse

/-- The legacy Jira server (part_000 lines 748-752) keeps no buffer: each
`data` event is trimmed and split on its own, and every non-blank fragment
of the chunk — including the fragment after the last newline — is fed to
`JSON.parse` as a candidate message. -/
def part000Candidates (data : List Char) : List (List Char) :=
  (splitNl (trimChars data)).filter (fun l => !isBlank l)

/-- Concatenation of a list of strings. -/
def concatAll : List (List Char) → List Char
  | [] => []
  | c :: cs => c ++ concatAll cs

/-- Helper: prepend a string onto the first fragment of a split. -/
def consFirst (x : List Char) : List (List Char) → List (List Char)
  | [] => [x]
  | y :: ys => (x ++ y) :: ys


/-- List-of-char test that `pat` is an initial segment of the second list. -/
def startsList : List Char → List Char → Bool
  | [], _ => true
  | _ :: _, [] => false
  | a :: as, b :: bs => a = b && startsList as bs

/-- Embedding of JavaScript `hay.includes(needle)`. -/
def containsSub (needle : List Char) : List Char → Bool
  | [] => needle.isEmpty
  | c :: cs => startsList needle (c :: cs) || containsSub needle cs

/-- JSON values as far as the dispatchers inspect them: primitives in
full, arrays and objects only as opaque truthy values (no dispatcher
decision in the cited code depends on their contents). -/
inductive JsVal where
  | nul
  | boolV (b : Bool)
  | numV (n : Int)
  | strV (s : List Char)
  | arrV
  | objV
deriving DecidableEq, Repr

/-- JavaScript truthiness of a JSON value. -/
def jsTruthy : JsVal → Bool
  | .nul => false
  | .boolV b => b
  | .numV n => n != 0
  | .strV s => !s.isEmpty
  | .arrV => true
  | .objV => true

/-- A decoded JSON-RPC request as the dispatchers consume it:
`id` (absent = the JSON field is missing), `method` (absent or a string;
a non-string method would crash the Confluence notification test and is
out of scope), and the `params` fields used by `tools/call`
(`params.name` and `params.arguments`, the latter defaulted to `{}`
when absent, represented as an association list). -/
structure RpcRequest where
  id : Option JsVal
  method : Option (List Char)
  toolName : Option (List Char)
  args : List (List Char × JsVal)
deriving DecidableEq, Repr

/-- Property lookup in a `params.arguments` object; `none` = undefined. -/
def argLookup : List (List Char × JsVal) → List Char → Option JsVal
  | [], _ => none
  | (k, v) :: rest, key => if k = key then some v else argLookup rest key

/-- Truthiness of a possibly-undefined argument (`undefined` is falsy). -/
def truthyOpt (o : Option JsVal) : Bool :=
  match o with
  | some v => jsTruthy v
  | none => false

/-- Result payloads of `handleRequest`, by branch.  The static
`initialize` descriptor and the registry listing are fixed data whose
contents no claim inspects; a successful `tools/call` yields a content
block, and the Confluence `handleToolCall` can yield an error-flagged
(`isError: true`) content block carrying a message. -/
inductive ResPayload where
  | initDescriptor
  | toolsListing
  | toolOk
  | toolErrContent (msg : List Char)
deriving DecidableEq, Repr

/-- One emitted JSON-RPC reply line: a result or an error object. -/
inductive Reply where
  | success (id : JsVal) (res : ResPayload)
  | failure (id : JsVal) (code : Int) (message : List Char) (data : List Char)
deriving DecidableEq, Repr

/-- Error-code classification of the Jira v1.3.0 dispatcher
(`src/mcp/jira/index.js` lines 815-828), keyed on substrings of the
thrown message. -/
def classifyJira (msg : List Char) : Int × List Char :=
  if containsSub ("Unknown method".toList) msg then
    (-32601, "Method not found".toList)
  else if containsSub ("required".toList) msg ||
      containsSub ("Invalid arguments".toList) msg then
    (-32602, "Invalid params".toList)
  else if containsSub ("Tool execution failed".toList) msg then
    (-32000, "Tool execution error".toList)
  else
    (-32603, "Internal error".toList)

/-- Error-code classification of the Confluence dispatcher
(part_001 lines 1444-1454); it has no `-32000` branch. -/
def classifyConf (msg : List Char) : Int × List Char :=
  if containsSub ("Unknown method".toList) msg then
    (-32601, "Method not found".toList)
  else if containsSub ("required".toList) msg ||
      containsSub ("Invalid arguments".toList) msg then
    (-32602, "Invalid params".toList)
  else
    (-32603, "Internal error".toList)

/-- Names of the tools declared by the Jira registry
(`tools/list`, index.js lines 538-658). -/
def jiraToolNamesList : List (List Char) :=
  ["get_projects".toList, "get_issue".toList, "search_issues".toList,
   "create_issue".toList, "update_issue".toList, "get_issue_types".toList,
   "add_comment".toList, "get_current_user".toList, "get_labels".toList,
   "get_fix_versions".toList, "get_components".toList]

/-- The `required` arrays of the Jira registry's input schemas, per tool
(empty for tools with no required parameters). -/
def jiraRequiredOf (n : List Char) : List (List Char) :=
  if n = "get_issue".toList then ["issueKey".toList]
  else if n = "search_issues".toList then ["jql".toList]
  else if n = "create_issue".toList then
    ["projectKey".toList, "issueType".toList, "summary".toList]
  else if n = "update_issue".toList then ["issueKey".toList, "fields".toList]
  else if n = "add_comment".toList then ["issueKey".toList, "comment".toList]
  else if n = "get_fix_versions".toList then ["projectKey".toList]
  else if n = "get_components".toList then ["projectKey".toList]
  else []

/-- One backend call through `makeRequest` against the oracle `bk`; the
handler body's data reshaping does not affect any claim, so a successful
call is recorded as a unit result together with the call count. -/
def call1 (bk : Nat → Except (List Char) Unit) : Except (List Char) Unit × Nat :=
  match bk 0 with
  | .ok _ => (.ok (), 1)
  | .error e => (.error e, 1)

/-- Body of the Jira `handleToolCall` switch (index.js lines 678-755):
per-tool truthiness validation of the required arguments, throwing the
literal `... is required` messages before any backend call, then one
`makeRequest`-backed handler invocation.  `args` is always an object
here because the destructuring defaults `arguments` to `{}`, so the
`get_projects` arguments-format guard cannot fire. -/
def jiraToolRun (bk : Nat → Except (List Char) Unit)
    (name : Option (List Char)) (args : List (List Char × JsVal)) :
    Except (List Char) Unit × Nat :=
  match name with
  | none => (.error ("Unknown tool: undefined".toList), 0)
  | some n =>
    if n = "get_projects".toList then call1 bk
    else if n = "get_issue".toList then
      if !truthyOpt (argLookup args ("issueKey".toList)) then
        (.error ("issueKey is required".toList), 0)
      else call1 bk
    else if n = "search_issues".toList then
      if !truthyOpt (argLookup args ("jql".toList)) then
        (.error ("jql is required".toList), 0)
      else call1 bk
    else if n = "create_issue".toList then
      if !truthyOpt (argLookup args ("projectKey".toList)) ||
          !truthyOpt (argLookup args ("issueType".toList)) ||
          !truthyOpt (argLookup args ("summary".toList)) then
        (.error ("projectKey, issueType, and summary are required".toList), 0)
      else call1 bk
    else if n = "update_issue".toList then
      if !truthyOpt (argLookup args ("issueKey".toList)) ||
          !truthyOpt (argLookup args ("fields".toList)) then
        (.error ("issueKey and fields are required".toList), 0)
      else call1 bk
    else if n = "get_issue_types".toList then call1 bk
    else if n = "add_comment".toList then
      if !truthyOpt (argLookup args ("issueKey".toList)) ||
          !truthyOpt (argLookup args ("comment".toList)) then
        (.error ("issueKey and comment are required".toList), 0)
      else call1 bk
    else if n = "get_current_user".toList then call1 bk
    else if n = "get_labels".toList then call1 bk
    else if n = "get_fix_versions".toList then
      if !truthyOpt (argLookup args ("projectKey".toList)) then
        (.error ("projectKey is required".toList), 0)
      else call1 bk
    else if n = "get_components".toList then
      if !truthyOpt (argLookup args ("projectKey".toList)) then
        (.error ("projectKey is required".toList), 0)
      else call1 bk
    else (.error ("Unknown tool: ".toList ++ n), 0)

/-- The Jira `handleToolCall` (index.js lines 672-769): the whole switch
runs inside a try whose catch rethrows every failure wrapped as
`Tool execution failed: ...`. -/
def jiraHandleToolCall (bk : Nat → Except (List Char) Unit)
    (name : Option (List Char)) (args : List (List Char × JsVal)) :
    Except (List Char) ResPayload × Nat :=
  match jiraToolRun bk name args with
  | (.ok _, c) => (.ok .toolOk, c)
  | (.error e, c) => (.error ("Tool execution failed: ".toList ++ e), c)

/-- The Jira `handleRequest` method switch (index.js lines 521-670). -/
def jiraHandleRequest (bk : Nat → Except (List Char) Unit) (req : RpcRequest) :
    Except (List Char) ResPayload × Nat :=
  match req.method with
  | some m =>
    if m = "initialize".toList then (.ok .initDescriptor, 0)
    else if m = "tools/list".toList then (.ok .toolsListing, 0)
    else if m = "tools/call".toList then jiraHandleToolCall bk req.toolName req.args
    else (.error ("Unknown method: ".toList ++ m), 0)
  | none => (.error ("Unknown method: undefined".toList), 0)

/-- Reply id recovery of the Jira v1.3.0 dispatcher:
`requestId = request.id || null`, a truthiness test. -/
def jiraRequestId (idField : Option JsVal) : JsVal :=
  match idField with
  | some v => if jsTruthy v then v else .nul
  | none => .nul

/-- Reply id recovery of the Confluence dispatcher:
`requestId = request.id !== undefined ? request.id : null`. -/
def confRequestId (idField : Option JsVal) : JsVal :=
  match idField with
  | some v => v
  | none => .nul

/-- Confluence notification test (part_001 line 1427): the method exists
and lies in the `notifications/` namespace or equals `initialized`. -/
def isNotifMethod (m : Option (List Char)) : Bool :=
  match m with
  | some s => startsList ("notifications/".toList) s || s = "initialized".toList
  | none => false

/-- Per-line body of the Jira v1.3.0 dispatch loop (index.js lines
784-840), parameterised by the `JSON.parse` oracle and the backend:
blank lines skipped, parse failure replied with `-32700` and id null,
otherwise exactly one success or classified error reply. -/
def jiraProcessLine (parse : List Char → Except (List Char) RpcRequest)
    (bk : Nat → Except (List Char) Unit) (line : List Char) :
    List Reply × Nat :=
  if isBlank line then ([], 0)
  else
    match parse line with
    | .error e => ([.failure .nul (-32700) ("Parse error".toList) e], 0)
    | .ok req =>
      match jiraHandleRequest bk req with
      | (.ok res, c) => ([.success (jiraRequestId req.id) res], c)
      | (.error e, c) =>
        ([.failure (jiraRequestId req.id) (classifyJira e).1 (classifyJira e).2 e], c)

/-- The Jira dispatch loop over the framed lines of a chunk: each line is
processed independently, so replies concatenate. -/
def jiraProcessLines (parse : List Char → Except (List Char) RpcRequest)
    (bk : Nat → Except (List Char) Unit) : List (List Char) → List Reply
  | [] => []
  | l :: ls => (jiraProcessLine parse bk l).1 ++ jiraProcessLines parse bk ls

/-- The Confluence `handleRequest` method switch (part_001 lines
1015-1192), parameterised by the `tools/call` continuation. -/
def confHandleRequest
    (tc : Option (List Char) → List (List Char × JsVal) → Except (List Char) ResPayload × Nat)
    (req : RpcRequest) : Except (List Char) ResPayload × Nat :=
  match req.method with
  | some m =>
    if m = "initialize".toList then (.ok .initDescriptor, 0)
    else if m = "tools/list".toList then (.ok .toolsListing, 0)
    else if m = "tools/call".toList then tc req.toolName req.args
    else (.error ("Unknown method: ".toList ++ m), 0)
  | none => (.error ("Unknown method: undefined".toList), 0)

/-- Names of the tools the Confluence `handleToolCall` switch knows
(part_001 lines 1198-1378). -/
def confToolNames : List (List Char) :=
  ["get_spaces".toList, "get_page".toList, "search_pages".toList,
   "create_page".toList, "update_page".toList, "delete_page".toList,
   "get_page_history".toList, "get_child_pages".toList,
   "get_page_comments".toList, "add_page_comment".toList,
   "get_space_pages".toList, "get_page_labels".toList,
   "add_page_label".toList, "get_page_attachments".toList,
   "get_recent_pages".toList, "get_my_pages".toList,
   "get_pages_by_label".toList, "get_page_templates".toList,
   "get_space_details".toList]

/-- The Confluence `handleToolCall` (part_001 lines 1194-1389): the
switch runs inside a try whose catch converts every failure — including
the `Unknown tool` throw of the default case — into an ordinary result
whose content is an error-flagged text block; it never rethrows.  The
known tool bodies (which perform no argument validation) are the
parameter `exec`. -/
def confHandleToolCall
    (exec : List Char → List (List Char × JsVal) → Except (List Char) Unit × Nat)
    (name : Option (List Char)) (args : List (List Char × JsVal)) :
    Except (List Char) ResPayload × Nat :=
  match name with
  | none => (.ok (.toolErrContent ("Error: Unknown tool: undefined".toList)), 0)
  | some n =>
    if n ∈ confToolNames then
      match exec n args with
      | (.ok _, c) => (.ok .toolOk, c)
      | (.error e, c) => (.ok (.toolErrContent ("Error: ".toList ++ e)), c)
    else (.ok (.toolErrContent ("Error: Unknown tool: ".toList ++ n)), 0)

/-- Per-line body of the Confluence dispatch loop (part_001 lines
1404-1466), parameterised by the `JSON.parse` oracle and the
`handleRequest` outcome `h`: blank lines skipped; parse failure replied
with `-32700` and id null; notification-namespace methods and the
handshake acknowledgment skipped with no reply; a successful handling
replied only when the recovered id is non-null; a failed handling always
replied with a classified error. -/
def confProcessLine (parse : List Char → Except (List Char) RpcRequest)
    (h : RpcRequest → Except (List Char) ResPayload × Nat) (line : List Char) :
    List Reply × Nat :=
  if isBlank line then ([], 0)
  else
    match parse line with
    | .error e => ([.failure .nul (-32700) ("Parse error".toList) e], 0)
    | .ok req =>
      if isNotifMethod req.method then ([], 0)
      else
        match h req with
        | (.ok res, c) =>
          (if confRequestId req.id ≠ .nul then [.success (confRequestId req.id) res] else [], c)
        | (.error e, c) =>
          ([.failure (confRequestId req.id) (classifyConf e).1 (classifyConf e).2 e], c)

/-- One output line of the legacy Jira server (part_000): a result (with
the raw, possibly absent request id) or an error object. -/
inductive P0Out where
  | success (id : Option JsVal)
  | failure (id : Option JsVal) (code : Int) (message : List Char)
deriving DecidableEq, Repr

/-- The line loop of the legacy Jira server's data handler (part_000
lines 749-772): the whole loop sits in one try, so the first parse or
handling failure emits a single `-32603` reply with id null and abandons
the remaining lines of the chunk. -/
def part000Go (parse : List Char → Except (List Char) RpcRequest)
    (h : RpcRequest → Except (List Char) Unit) : List (List Char) → List P0Out
  | [] => []
  | l :: rest =>
    if isBlank l then part000Go parse h rest
    else
      match parse l with
      | .error e => [.failure none (-32603) e]
      | .ok req =>
        match h req with
        | .ok _ => .success req.id :: part000Go parse h rest
        | .error e => [.failure none (-32603) e]

/-- One `data` event of the legacy Jira server: trim, split, loop. -/
def part000ProcessData (parse : List Char → Except (List Char) RpcRequest)
    (h : RpcRequest → Except (List Char) Unit) (data : List Char) : List P0Out :=
  part000Go parse h (splitNl (trimChars data))

/-- Correlation id carried by a reply. -/
def replyId : Reply → JsVal
  | .success i _ => i
  | .failure i _ _ _ => i

/-- The Confluence response cache TTL: `5 * 60 * 1000` ms (part_001
line 12). -/
def cacheTimeout : Nat := 5 * 60 * 1000

/-- Lookup in the cache map (`this.cache.get(key)`), returning the stored
data and its timestamp. -/
def lookupEntry {V : Type} : List (List Char × V × Nat) → List Char → Option (V × Nat)
  | [], _ => none
  | (k, v, ts) :: rest, key =>
    if k = key then some (v, ts) else lookupEntry rest key

/-- Removal from the cache map (`this.cache.delete(key)`). -/
def eraseEntry {V : Type} : List (List Char × V × Nat) → List Char → List (List Char × V × Nat)
  | [], _ => []
  | (k, v, ts) :: rest, key =>
    if k = key then eraseEntry rest key else (k, v, ts) :: eraseEntry rest key

/-- `getFromCache` (part_001 lines 128-135): return the data only when an
entry exists and `Date.now() - cached.timestamp < this.cacheTimeout`
(with `now` in ms; the truncated Nat subtraction agrees with the JS
comparison for every timestamp, since the TTL is positive); otherwise
delete the key and return null.  Returns the value and the cache after
the call. -/
def getFromCache {V : Type} (now : Nat) (cache : List (List Char × V × Nat))
    (key : List Char) : Option V × List (List Char × V × Nat) :=
  match lookupEntry cache key with
  | some (v, ts) =>
    if now - ts < cacheTimeout then (some v, cache) else (none, eraseEntry cache key)
  | none => (none, eraseEntry cache key)

/-- `setToCache` (part_001 lines 137-142): unconditional insert/overwrite
with the current timestamp. -/
def setToCache {V : Type} (now : Nat) (cache : List (List Char × V × Nat))
    (key : List Char) (v : V) : List (List Char × V × Nat) :=
  (key, v, now) :: eraseEntry cache key

/-- The cache key `getCacheKey(endpoint, {method, body})` (part_001 lines
124-126): the endpoint, a colon, and the `JSON.stringify` of the params
(the stringify builtin is external, so its output is the argument
`mrepr`; identical requests hand in the identical `mrepr`). -/
def confCacheKey (endpoint mrepr : List Char) : List Char :=
  endpoint ++ ':' :: mrepr

/-- The Confluence `makeRequest` (part_001 lines 323-396) against the
HTTPS oracle `http` (covering status/parse failures as `.error`): GET
requests consult the cache first and store a fresh success; non-GET
requests bypass the cache entirely.  Returns the outcome, the cache
after the call, and the number of backend (HTTPS) calls performed. -/
def confMakeRequest {V : Type} (http : List Char → Except (List Char) V)
    (now : Nat) (cache : List (List Char × V × Nat))
    (endpoint mrepr : List Char) (isGet : Bool) :
    Except (List Char) V × List (List Char × V × Nat) × Nat :=
  if isGet then
    match getFromCache now cache (confCacheKey endpoint mrepr) with
    | (some v, c2) => (.ok v, c2, 0)
    | (none, c2) =>
      match http endpoint with
      | .ok v => (.ok v, setToCache now c2 (confCacheKey endpoint mrepr) v, 1)
      | .error e => (.error e, c2, 1)
  else
    match http endpoint with
    | .ok v => (.ok v, cache, 1)
    | .error e => (.error e, cache, 1)

/-- JavaScript template-literal stringification of a possibly-undefined
value, as interpolation into an endpoint renders it. -/
def jsValToStr : Option JsVal → List Char
  | none => "undefined".toList
  | some .nul => "null".toList
  | some (.boolV b) => if b then "true".toList else "false".toList
  | some (.numV n) => (toString n).toList
  | some (.strV s) => s
  | some .arrV => []
  | some .objV => "[object Object]".toList

/-- Endpoint built by the Confluence `getPage` (part_001 lines 426-428):
a missing `pageId` interpolates as the text `undefined`. -/
def confGetPageEndpoint (pageId : Option JsVal) : List Char :=
  "/content/".toList ++ jsValToStr pageId ++ "?expand=body.storage,version".toList

/-- The Confluence `getPage` body (part_001 lines 424-436): one GET
`makeRequest` on the interpolated endpoint (the `optimizeResponse`
reshaping of the successful payload affects no claim). -/
def confGetPage {V : Type} (http : List Char → Except (List Char) V)
    (mrepr : List Char) (now : Nat) (cache : List (List Char × V × Nat))
    (pageId : Option JsVal) :
    Except (List Char) V × List (List Char × V × Nat) × Nat :=
  confMakeRequest http now cache (confGetPageEndpoint pageId) mrepr true

/-- Generic global regex-substitution over maximal runs of characters
satisfying `p`: each maximal non-empty run is replaced by `f run`,
characters outside runs are kept.  `run` is the pending run read so far. -/
def runsMapGo (p : Char → Bool) (f : List Char → List Char) :
    List Char → List Char → List Char
  | run, [] => if run.isEmpty then [] else f run
  | run, c :: cs =>
    if p c then runsMapGo p f (run ++ [c]) cs
    else (if run.isEmpty then [] else f run) ++ c :: runsMapGo p f [] cs

def runsMap (p : Char → Bool) (f : List Char → List Char) (s : List Char) : List Char :=
  runsMapGo p f [] s

/-- `.replace(/\n{3,}/g, '\n\n')` (index.js line 121): a run of three or
more newlines becomes two. -/
def collapseNl3 (s : List Char) : List Char :=
  runsMap (fun c => c = '\n') (fun r => if 3 ≤ r.length then ['\n', '\n'] else r) s

/-- `.replace(/\s*\n\s*/g, '\n')` (index.js line 122): a maximal
whitespace run containing a newline collapses to one newline (the greedy
leftmost match consumes the whole run). -/
def collapseWsNl (s : List Char) : List Char :=
  runsMap isJsWs (fun r => if r.contains '\n' then ['\n'] else r) s

/-- `.replace(/\s+/g, ' ')` (index.js line 123): every maximal whitespace
run collapses to a single space. -/
def collapseWs (s : List Char) : List Char :=
  runsMap isJsWs (fun _ => [' ']) s

/-- The cleaned text of the Jira `htmlToText` (index.js lines 50-124):
the external `html-to-text` `convert` (the oracle `conv`) followed by the
three regex substitutions and a trim. -/
def cleanTextOf (conv : List Char → List Char) (html : List Char) : List Char :=
  trimChars (collapseWs (collapseWsNl (collapseNl3 (conv html))))

/-- Sentence-ending punctuation of the split regex `/[.!?]\s+/`. -/
def isSentEnd (c : Char) : Bool := c = '.' || c = '!' || c = '?'

def consHeadC (c : Char) : List (List Char) → List (List Char)
  | [] => [[c]]
  | p :: ps => (c :: p) :: ps

/-- `cleanText.split(/[.!?]\s+/)` (index.js line 128): split at each
punctuation character followed by a maximal whitespace run, the
separator being removed. -/
def splitSentences : List Char → List (List Char)
  | [] => [[]]
  | [c] => [[c]]
  | c :: d :: cs =>
    if isSentEnd c && isJsWs d then [] :: splitSentences (cs.dropWhile isJsWs)
    else consHeadC c (splitSentences (d :: cs))
termination_by l => l.length
decreasing_by
  · simp only [List.length_cons]
    have h := List.Sublist.length_le (List.dropWhile_sublist (l := cs) (p := isJsWs))
    omega
  · simp [List.length_cons]

/-- The summarisation loop of `htmlToText` (index.js lines 129-136):
break when appending the raw sentence would pass 400 characters, skip
blank sentences, otherwise append the trimmed sentence plus `. `. -/
def summarizeLoop : List Char → List (List Char) → List Char
  | summary, [] => summary
  | summary, s :: ss =>
    if 400 < (summary ++ s).length then summary
    else if (trimChars s).isEmpty then summarizeLoop summary ss
    else summarizeLoop (summary ++ trimChars s ++ ['.', ' ']) ss

/-- The same accumulation with no break: used to state that the loop's
result is the whole-sentence accumulation of a prefix. -/
def accumAll : List Char → List (List Char) → List Char
  | summary, [] => summary
  | summary, s :: ss =>
    if (trimChars s).isEmpty then accumAll summary ss
    else accumAll (summary ++ trimChars s ++ ['.', ' ']) ss

/-- The cap branch of `htmlToText` (index.js lines 127-139): text of more
than 500 characters is summarised and suffixed with `...` when shorter
than the original; text at or under 500 characters is returned as is. -/
def summarizeIfLong (cleanText : List Char) : List Char :=
  if 500 < cleanText.length then
    trimChars (summarizeLoop [] (splitSentences cleanText)) ++
      (if (summarizeLoop [] (splitSentences cleanText)).length < cleanText.length
        then "...".toList else [])
  else cleanText

/-- The Jira `htmlToText` (index.js lines 46-142) over the `convert`
oracle: empty (falsy) input short-circuits to the empty string. -/
def htmlToText (conv : List Char → List Char) (html : List Char) : List Char :=
  if html.isEmpty then [] else summarizeIfLong (cleanTextOf conv html)

/-- Suffix after the first `>`, if any (the end of a `/<[^>]*>/` match). -/
def findGt : List Char → Option (List Char)
  | [] => none
  | c :: cs => if c = '>' then some cs else findGt cs

theorem findGt_length (cs : List Char) (r : List Char) (h : findGt cs = some r) :
    r.length < cs.length := by
  induction cs with
  | nil => simp [findGt] at h
  | cons c cs ih =>
    simp only [findGt] at h
    split at h
    · cases h
      simp
    · have := ih h
      simp only [List.length_cons]
      omega

/-- The blunt fallback pass `.replace(/<[^>]*>/g, "")` of
`cleanHtmlToText` (part_001 line 258): every `<`, the run of
non-`>` characters after it and the closing `>` are removed; a `<` with
no later `>` stays (the regex does not match there). -/
def stripTags : List Char → List Char
  | [] => []
  | c :: cs =>
    if c = '<' then
      match hf : findGt cs with
      | some rest => stripTags rest
      | none => c :: stripTags cs
    else c :: stripTags cs
termination_by l => l.length
decreasing_by
  · have := findGt_length cs rest hf
    simp only [List.length_cons]
    omega
  · simp
  · simp

/-- The Confluence `cleanHtmlToText` (part_001 lines 244-261):
`preprocessHtml` is a pure regex pipeline (the total oracle `pre`); the
external `html-to-text` `convert` may throw (the `Except`-valued oracle
`conv`); the catch re-preprocesses the input, strips all remaining
markup bluntly and trims, and always returns `.ok`. -/
def cleanHtmlToText (pre : List Char → List Char)
    (conv : List Char → Except (List Char) (List Char)) (html : List Char) :
    Except (List Char) (List Char) :=
  if html.isEmpty then .ok []
  else
    match conv (pre html) with
    | .ok t => .ok t
    | .error _ => .ok (trimChars (stripTags (pre html)))

/-- ASCII lowering, standing in for `toLowerCase` (the queries' keyword
tests only involve ASCII letters). -/
def toLowerAscii (c : Char) : Char :=
  if 'A' ≤ c && c ≤ 'Z' then Char.ofNat (c.toNat + 32) else c

def lowerStr (s : List Char) : List Char := s.map toLowerAscii

/-- Literal prefix match, returning the rest of the input. -/
def matchLit : List Char → List Char → Option (List Char)
  | [], s => some s
  | _ :: _, [] => none
  | a :: as, b :: bs => if a = b then matchLit as bs else none

/-- Case-insensitive literal prefix match (regex `/i` flag). -/
def matchLitCI : List Char → List Char → Option (List Char)
  | [], s => some s
  | _ :: _, [] => none
  | a :: as, b :: bs =>
    if toLowerAscii a = toLowerAscii b then matchLitCI as bs else none

/-- Suffix after the first `"`, consuming the `[^"]*"` of the patterns. -/
def afterQuote : List Char → Option (List Char)
  | [] => none
  | c :: cs => if c = '"' then some cs else afterQuote cs

/-- A match of `/space\s*=\s*"[^"]*"\s*AND\s*space\s*=/` starting here. -/
def matchDupSpaceAt (s : List Char) : Bool :=
  (do
    let s1 ← matchLit ("space".toList) s
    let s2 ← matchLit ['='] (trimLead s1)
    let s3 ← matchLit ['"'] (trimLead s2)
    let s4 ← afterQuote s3
    let s5 ← matchLit ("AND".toList) (trimLead s4)
    let s6 ← matchLit ("space".toList) (trimLead s5)
    let _ ← matchLit ['='] (trimLead s6)
    pure ()).isSome

/-- A match of `/\(\s*\)/` starting here. -/
def matchEmptyParensAt (s : List Char) : Bool :=
  (do
    let s1 ← matchLit ['('] s
    let _ ← matchLit [')'] (trimLead s1)
    pure ()).isSome

/-- A match of `/AND\s*AND|OR\s*OR/` starting here. -/
def matchDoubledOpAt (s : List Char) : Bool :=
  ((do
    let s1 ← matchLit ("AND".toList) s
    let _ ← matchLit ("AND".toList) (trimLead s1)
    pure ()).isSome) ||
  ((do
    let s1 ← matchLit ("OR".toList) s
    let _ ← matchLit ("OR".toList) (trimLead s1)
    pure ()).isSome)

/-- `regex.test(s)`: a match starts at some position. -/
def anySuffix (p : List Char → Bool) : List Char → Bool
  | [] => p []
  | c :: cs => p (c :: cs) || anySuffix p cs

/-- The dangerous-pattern tests of `validateAndOptimizeCQL`
(part_001 lines 585-595). -/
def hasDangerousCQL (s : List Char) : Bool :=
  anySuffix matchDupSpaceAt s || anySuffix matchEmptyParensAt s ||
    anySuffix matchDoubledOpAt s

/-- Global substitution `.replace(/\s*TOK\s*/g, repl)` for a whitespace-free
case-sensitive literal `t0 :: trest`: at each position the greedy match
skips leading whitespace, reads the literal and swallows trailing
whitespace; on failure the scan advances one character. -/
def replOpCS (t0 : Char) (trest repl : List Char) : List Char → List Char
  | [] => []
  | c :: cs =>
    match hm : matchLit (t0 :: trest) ((c :: cs).dropWhile isJsWs) with
    | some r => repl ++ replOpCS t0 trest repl (r.dropWhile isJsWs)
    | none => c :: replOpCS t0 trest repl cs
termination_by l => l.length
decreasing_by
  · have key : ∀ (as bs r2 : List Char), matchLit as bs = some r2 →
        bs.length = as.length + r2.length := by
      intro as
      induction as with
      | nil =>
        intro bs r2 h
        simp only [matchLit] at h
        cases h
        simp
      | cons a as ih =>
        intro bs r2 h
        cases bs with
        | nil => simp [matchLit] at h
        | cons b bs =>
          simp only [matchLit] at h
          split at h
          · have := ih bs r2 h
            simp only [List.length_cons]
            omega
          · cases h
    have h1 : ((c :: cs).dropWhile isJsWs).length ≤ (c :: cs).length :=
      (List.dropWhile_sublist (l := c :: cs) (p := isJsWs)).length_le
    have h2 := key (t0 :: trest) ((c :: cs).dropWhile isJsWs) r hm
    have h3 : (r.dropWhile isJsWs).length ≤ r.length :=
      (List.dropWhile_sublist (l := r) (p := isJsWs)).length_le
    simp only [List.length_cons] at *
    omega
  · simp

/-- As `replOpCS`, with the literal matched case-insensitively (`/gi`). -/
def replOpCI (t0 : Char) (trest repl : List Char) : List Char → List Char
  | [] => []
  | c :: cs =>
    match hm : matchLitCI (t0 :: trest) ((c :: cs).dropWhile isJsWs) with
    | some r => repl ++ replOpCI t0 trest repl (r.dropWhile isJsWs)
    | none => c :: replOpCI t0 trest repl cs
termination_by l => l.length
decreasing_by
  · have key : ∀ (as bs r2 : List Char), matchLitCI as bs = some r2 →
        bs.length = as.length + r2.length := by
      intro as
      induction as with
      | nil =>
        intro bs r2 h
        simp only [matchLitCI] at h
        cases h
        simp
      | cons a as ih =>
        intro bs r2 h
        cases bs with
        | nil => simp [matchLitCI] at h
        | cons b bs =>
          simp only [matchLitCI] at h
          split at h
          · have := ih bs r2 h
            simp only [List.length_cons]
            omega
          · cases h
    have h1 : ((c :: cs).dropWhile isJsWs).length ≤ (c :: cs).length :=
      (List.dropWhile_sublist (l := c :: cs) (p := isJsWs)).length_le
    have h2 := key (t0 :: trest) ((c :: cs).dropWhile isJsWs) r hm
    have h3 : (r.dropWhile isJsWs).length ≤ r.length :=
      (List.dropWhile_sublist (l := r) (p := isJsWs)).length_le
    simp only [List.length_cons] at *
    omega
  · simp

/-- The optimisation chain of `validateAndOptimizeCQL` (part_001 lines
598-603): collapse whitespace, then normalise the spacing around `=`,
`~`, `AND` and `OR` (the latter two case-insensitively). -/
def optimizeCQL (cleaned : List Char) : List Char :=
  replOpCI 'O' ("R".toList) (" OR ".toList)
    (replOpCI 'A' ("ND".toList) (" AND ".toList)
      (replOpCS '~' [] (" ~ ".toList)
        (replOpCS '=' [] (" = ".toList)
          (collapseWs cleaned))))

/-- `validateAndOptimizeCQL` (part_001 lines 581-606). -/
def validateAndOptimizeCQL (query : List Char) : Except (List Char) (List Char) :=
  if hasDangerousCQL (trimChars query) then
    .error ("Invalid CQL pattern detected: ".toList ++ trimChars query)
  else .ok (optimizeCQL (trimChars query))

/-- The partial encoding used when the optimised query has a space
condition (part_001 lines 475-478): only `"`, the space character and
`=` are percent-encoded, sequentially (equivalent to one pass). -/
def encodePartial (q : List Char) : List Char :=
  concatAll (q.map (fun c =>
    if c = '"' then "%22".toList
    else if c = ' ' then "%20".toList
    else if c = '=' then "%3D".toList
    else [c]))

/-- The space-condition test on the optimised query (part_001 472-473). -/
def spaceCondTest (oq : List Char) : Bool :=
  containsSub ("space =".toList) (lowerStr oq) ||
    containsSub ("space=".toList) (lowerStr oq)

def compactEncoded (enc : List Char → List Char) (oq : List Char) : List Char :=
  if spaceCondTest oq then encodePartial oq else enc oq

def natSL (n : Nat) : List Char := Nat.toDigits 10 n

/-- The endpoint of the compact CQL search (part_001 line 488). -/
def compactEndpoint (enc : List Char → List Char) (oq : List Char) (limit : Nat) : List Char :=
  "/content/search?cql=".toList ++ compactEncoded enc oq ++ "&limit=".toList ++ natSL limit

/-- Which strategy of the chain produced a search result (the source tags
fallback results with a `method` / `note` field). -/
inductive SearchRes where
  | compact
  | spaceTitle
  | simple
deriving DecidableEq, Repr

/-- One capture of `/LEAD\s*OP\s*"([^"]+)"/i` starting here. -/
def captureAt (lead : List Char) (opChar : Char) (s : List Char) : Option (List Char) := do
  let s1 ← matchLitCI lead s
  let s2 ← matchLit [opChar] (trimLead s1)
  let s3 ← matchLit ['"'] (trimLead s2)
  let cap := s3.takeWhile (fun c => !(c = '"'))
  let _ ← matchLit ['"'] (s3.drop cap.length)
  if cap.isEmpty then none else pure cap

/-- Leftmost capture over all start positions. -/
def firstSome (f : List Char → Option (List Char)) : List Char → Option (List Char)
  | [] => f []
  | c :: cs =>
    match f (c :: cs) with
    | some r => some r
    | none => firstSome f cs

def captureTitle (q : List Char) : Option (List Char) :=
  firstSome (captureAt ("title".toList) '~') q

def captureText (q : List Char) : Option (List Char) :=
  firstSome (captureAt ("text".toList) '~') q

def captureSpace (q : List Char) : Option (List Char) :=
  firstSome (captureAt ("space".toList) '=') q

def isWordChar (c : Char) : Bool :=
  ('a' ≤ c && c ≤ 'z') || ('A' ≤ c && c ≤ 'Z') || ('0' ≤ c && c ≤ '9') || c = '_'

def isHangul (c : Char) : Bool :=
  0xAC00 ≤ c.toNat && c.toNat ≤ 0xD7A3

/-- `query.replace(/[^\w\s가-힣]/g, '').trim()` (part_001 line 551). -/
def cleanTextStrip (q : List Char) : List Char :=
  trimChars (q.filter (fun c => isWordChar c || isJsWs c || isHangul c))

/-- The degraded query of `searchPagesSimple` (part_001 lines 537-553). -/
def simpleQueryOf (q : List Char) : List Char :=
  if containsSub ("title ~".toList) q then
    match captureTitle q with
    | some t => "title ~ \"".toList ++ t ++ ['"']
    | none => []
  else if containsSub ("text ~".toList) q then
    match captureText q with
    | some t => "text ~ \"".toList ++ t ++ ['"']
    | none => []
  else "text ~ \"".toList ++ cleanTextStrip q ++ ['"']

def simpleEndpoint (enc : List Char → List Char) (q : List Char) (limit : Nat) : List Char :=
  "/content/search?cql=".toList ++ enc (simpleQueryOf q) ++ "&limit=".toList ++ natSL limit

/-- `searchPagesSimple` (part_001 lines 534-578) over the `makeRequest`
oracle `bk` (endpoint-keyed) and the `encodeURIComponent` oracle `enc`.
Returns the outcome and the ordered log of `makeRequest` endpoints. -/
def searchPagesSimple (bk : List Char → Except (List Char) Unit)
    (enc : List Char → List Char) (q : List Char) (limit : Nat) :
    Except (List Char) SearchRes × List (List Char) :=
  match bk (simpleEndpoint enc q limit) with
  | .ok _ => (.ok .simple, [simpleEndpoint enc q limit])
  | .error e =>
    (.error ("Simple search also failed: ".toList ++ e), [simpleEndpoint enc q limit])

/-- `searchPagesCompact` (part_001 lines 463-531): validate and optimise,
query the backend, and in the catch fall back to the simple text search
only when the failure message contains `500`, rethrowing the original
error otherwise (also when the fallback itself fails). -/
def searchPagesCompact (bk : List Char → Except (List Char) Unit)
    (enc : List Char → List Char) (q : List Char) (limit : Nat) :
    Except (List Char) SearchRes × List (List Char) :=
  match validateAndOptimizeCQL q with
  | .error e =>
    if containsSub ("500".toList) e then
      match searchPagesSimple bk enc q limit with
      | (.ok r, cs) => (.ok r, cs)
      | (.error _, cs) => (.error e, cs)
    else (.error e, [])
  | .ok oq =>
    match bk (compactEndpoint enc oq limit) with
    | .ok _ => (.ok .compact, [compactEndpoint enc oq limit])
    | .error e =>
      if containsSub ("500".toList) e then
        match searchPagesSimple bk enc q limit with
        | (.ok r, cs) => (.ok r, compactEndpoint enc oq limit :: cs)
        | (.error _, cs) => (.error e, compactEndpoint enc oq limit :: cs)
      else (.error e, [compactEndpoint enc oq limit])

/-- `searchBySpaceAndTitle` (part_001 lines 609-634). -/
def searchBySpaceAndTitle (bk : List Char → Except (List Char) Unit)
    (enc : List Char → List Char) (spaceKey title : List Char) (limit : Nat) :
    Except (List Char) SearchRes × List (List Char) :=
  match bk ("/content?spaceKey=".toList ++ spaceKey ++ "&title=".toList ++
      enc title ++ "&limit=".toList ++ natSL limit ++ "&type=page".toList) with
  | .ok _ => (.ok .spaceTitle,
      ["/content?spaceKey=".toList ++ spaceKey ++ "&title=".toList ++
        enc title ++ "&limit=".toList ++ natSL limit ++ "&type=page".toList])
  | .error e => (.error e,
      ["/content?spaceKey=".toList ++ spaceKey ++ "&title=".toList ++
        enc title ++ "&limit=".toList ++ natSL limit ++ "&type=page".toList])

/-- `errors.join('; ')`. -/
def joinSemi : List (List Char) → List Char
  | [] => []
  | [x] => x
  | x :: y :: ys => x ++ "; ".toList ++ joinSemi (y :: ys)

/-- Strategy 3 and the aggregate failure of `advancedSearch`
(part_001 lines 662-669). -/
def advancedSearchTail (bk : List Char → Except (List Char) Unit)
    (enc : List Char → List Char) (q : List Char) (limit : Nat)
    (errs : List (List Char)) (calls : List (List Char)) :
    Except (List Char) SearchRes × List (List Char) :=
  match searchPagesSimple bk enc q limit with
  | (.ok r, cs) => (.ok r, calls ++ cs)
  | (.error e, cs) =>
    (.error ("All search methods failed: ".toList ++
      joinSemi (errs ++ ["Simple search: ".toList ++ e])), calls ++ cs)

/-- `advancedSearch` (part_001 lines 637-670): the three-strategy chain.
Each strategy's failure is recorded and the chain advances; a first
success returns that strategy's tagged result. -/
def advancedSearch (bk : List Char → Except (List Char) Unit)
    (enc : List Char → List Char) (q : List Char) (limit : Nat) :
    Except (List Char) SearchRes × List (List Char) :=
  match searchPagesCompact bk enc q limit with
  | (.ok r, cs) => (.ok r, cs)
  | (.error e1, cs1) =>
    if containsSub ("space".toList) (lowerStr q) then
      match captureSpace q, captureTitle q with
      | some sk, some t =>
        match searchBySpaceAndTitle bk enc sk t limit with
        | (.ok r, cs2) => (.ok r, cs1 ++ cs2)
        | (.error e2, cs2) =>
          advancedSearchTail bk enc q limit
            ["CQL search: ".toList ++ e1, "Space+Title search: ".toList ++ e2]
            (cs1 ++ cs2)
      | _, _ => advancedSearchTail bk enc q limit ["CQL search: ".toList ++ e1] cs1
    else advancedSearchTail bk enc q limit ["CQL search: ".toList ++ e1] cs1

/-- Decidable equality of `Except` outcomes, for concrete evaluation. -/
instance instDecEqExcept {e a : Type} [DecidableEq e] [DecidableEq a] :
    DecidableEq (Except e a)
  | .error x, .error y =>
    if h : x = y then .isTrue (by rw [h]) else .isFalse (by simp [h])
  | .error _, .ok _ => .isFalse (by simp)
  | .ok _, .error _ => .isFalse (by simp)
  | .ok x, .ok y =>
    if h : x = y then .isTrue (by rw [h]) else .isFalse (by simp [h])

-- ===== end of definitions / start of theorems =====

theorem splitNl_ne_nil (s : List Char) : splitNl s ≠ [] := by
  induction s with
  | nil => simp [splitNl]
  | cons c cs ih =>
    simp only [splitNl]
    split
    · simp
    · cases h : splitNl cs with
      | nil => simp
      | cons p ps => simp

theorem mem_splitNl_no_nl (s : List Char) : ∀ p ∈ splitNl s, '\n' ∉ p := by
  induction s with
  | nil =>
    intro p hp
    simp only [splitNl, List.mem_singleton] at hp
    simp [hp]
  | cons c cs ih =>
    intro p hp
    simp only [splitNl] at hp
    split at hp
    · rcases List.mem_cons.mp hp with h1 | h1
      · simp [h1]
      · exact ih p h1
    · rename_i hc
      rcases hsp : splitNl cs with _ | ⟨q, qs⟩
      · exact absurd hsp (splitNl_ne_nil cs)
      · rw [hsp] at hp
        rcases List.mem_cons.mp hp with h1 | h1
        · subst h1
          intro hmem
          rcases List.mem_cons.mp hmem with h2 | h2
          · exact hc h2.symm
          · exact ih q (hsp ▸ List.mem_cons_self q qs) h2
        · exact ih p (hsp ▸ List.mem_cons_of_mem q h1)

theorem splitNl_no_nl (s : List Char) (h : '\n' ∉ s) : splitNl s = [s] := by
  induction s with
  | nil => simp [splitNl]
  | cons c cs ih =>
    simp only [splitNl]
    have hc : ¬ c = '\n' := fun hh => h (by simp [hh])
    rw [if_neg hc, ih (fun hm => h (by simp [hm]))]

theorem splitNl_append (s t : List Char) :
    splitNl (s ++ t) = (splitNl s).dropLast ++ consFirst (lastD (splitNl s)) (splitNl t) := by
  induction s with
  | nil =>
    rcases h : splitNl t with _ | ⟨q, qs⟩
    · exact absurd h (splitNl_ne_nil t)
    · simp [splitNl, consFirst, lastD, h]
  | cons c cs ih =>
    by_cases hc : c = '\n'
    · subst hc
      simp only [List.cons_append, splitNl, if_pos rfl]
      rcases h : splitNl cs with _ | ⟨q, qs⟩
      · exact absurd h (splitNl_ne_nil cs)
      · rw [h] at ih
        simp [ih, lastD, List.dropLast]
    · simp only [List.cons_append, splitNl, if_neg hc]
      rcases h : splitNl cs with _ | ⟨q, qs⟩
      · exact absurd h (splitNl_ne_nil cs)
      · rcases h2 : splitNl t with _ | ⟨r, rs⟩
        · exact absurd h2 (splitNl_ne_nil t)
        · rw [h, h2] at ih
          simp only [List.append_eq]
          rcases qs with _ | ⟨q2, qs2⟩
          · simp only [consFirst, lastD, List.dropLast, List.nil_append] at ih
            rw [ih]
            simp [consFirst, lastD, List.dropLast]
          · simp only [consFirst, lastD, List.dropLast] at ih
            rw [ih]
            simp [consFirst, lastD, List.dropLast]

theorem dropLast_append_ne {α : Type} (X K : List α) (hK : K ≠ []) :
    (X ++ K).dropLast = X ++ K.dropLast := by
  induction X with
  | nil => simp
  | cons x xs ih =>
    rcases K with _ | ⟨k, ks⟩
    · exact absurd rfl hK
    · rcases xs with _ | ⟨y, ys⟩
      · simp [List.dropLast]
      · simp only [List.cons_append, List.dropLast, List.append_eq] at ih ⊢
        rw [ih]

theorem lastD_append (X K : List (List Char)) (hK : K ≠ []) :
    lastD (X ++ K) = lastD K := by
  induction X with
  | nil => simp
  | cons x xs ih =>
    rcases K with _ | ⟨k, ks⟩
    · exact absurd rfl hK
    · rcases xs with _ | ⟨y, ys⟩
      · simp [lastD]
      · simpa [lastD] using ih

theorem lastD_mem (ls : List (List Char)) (h : ls ≠ []) : lastD ls ∈ ls := by
  induction ls with
  | nil => exact absurd rfl h
  | cons x xs ih =>
    rcases xs with _ | ⟨y, ys⟩
    · simp [lastD]
    · exact List.mem_cons_of_mem x (ih (by simp))

theorem no_nl_lastD_splitNl (s : List Char) : '\n' ∉ lastD (splitNl s) :=
  mem_splitNl_no_nl s _ (lastD_mem _ (splitNl_ne_nil s))

theorem feedChunks_spec (chunks : List (List Char)) (buffer : List Char)
    (hb : '\n' ∉ buffer) :
    feedChunks buffer chunks =
      (emitted (splitNl (buffer ++ concatAll chunks)).dropLast,
       lastD (splitNl (buffer ++ concatAll chunks))) := by
  induction chunks generalizing buffer with
  | nil =>
    simp [feedChunks, concatAll, splitNl_no_nl buffer hb, emitted, lastD, List.dropLast]
  | cons c cs ih =>
    have hb1 : '\n' ∉ lastD (splitNl (buffer ++ c)) := no_nl_lastD_splitNl _
    simp only [feedChunks, framerStep, concatAll]
    rw [ih _ hb1]
    have hK : consFirst (lastD (splitNl (buffer ++ c))) (splitNl (concatAll cs)) ≠ [] := by
      rcases h : splitNl (concatAll cs) with _ | ⟨r, rs⟩
      · exact absurd h (splitNl_ne_nil _)
      · simp [consFirst]
    have key : splitNl (buffer ++ (c ++ concatAll cs)) =
        (splitNl (buffer ++ c)).dropLast ++
          consFirst (lastD (splitNl (buffer ++ c))) (splitNl (concatAll cs)) := by
      rw [← List.append_assoc]
      exact splitNl_append (buffer ++ c) (concatAll cs)
    have key2 : splitNl (lastD (splitNl (buffer ++ c)) ++ concatAll cs) =
        consFirst (lastD (splitNl (buffer ++ c))) (splitNl (concatAll cs)) := by
      rw [splitNl_append, splitNl_no_nl _ hb1]
      simp [lastD, List.dropLast]
    rw [key, key2, dropLast_append_ne _ _ hK, lastD_append _ _ hK]
    simp [emitted, List.filter_append]

theorem splitNl_nl_cons (m r : List Char) (hm : '\n' ∉ m) :
    splitNl (m ++ '\n' :: r) = m :: splitNl r := by
  induction m with
  | nil => simp [splitNl]
  | cons a as ih =>
    have ha : ¬ a = '\n' := fun hh => hm (by simp [hh])
    have has : '\n' ∉ as := fun hx => hm (List.mem_cons_of_mem a hx)
    simp only [List.cons_append, splitNl, if_neg ha, List.append_eq, ih has]

theorem splitNl_joined (msgs : List (List Char)) (tail : List Char)
    (hm : ∀ m ∈ msgs, '\n' ∉ m) (ht : '\n' ∉ tail) :
    splitNl (concatAll (msgs.map (fun m => m ++ ['\n'])) ++ tail) = msgs ++ [tail] := by
  induction msgs with
  | nil => simp [concatAll, splitNl_no_nl tail ht]
  | cons m ms ih =>
    have hmm : '\n' ∉ m := hm m (List.mem_cons_self m ms)
    have hms : ∀ x ∈ ms, '\n' ∉ x := fun x hx => hm x (List.mem_cons_of_mem m hx)
    simp only [List.map_cons, concatAll, List.append_assoc]
    have : m ++ ['\n'] ++ (concatAll (ms.map (fun x => x ++ ['\n'])) ++ tail) =
        m ++ '\n' :: (concatAll (ms.map (fun x => x ++ ['\n'])) ++ tail) := by
      simp
    rw [List.append_assoc] at this
    rw [this, splitNl_nl_cons _ _ hmm, ih hms]
    simp

/-- C1 counterexample.  The claim ranges over every cited stream data
handler, but the legacy Jira server's handler (part_000 lines 748-752)
trims and splits each chunk on its own: fed the single chunk `"a\nb"`
(a partition of the one newline-delimited message `"a"` followed by the
trailing fragment `"b"`), it emits the trailing fragment `"b"` as a
candidate message instead of retaining it in a buffer, unlike the
buffered framer, which emits only `"a"` and keeps `"b"` buffered. -/
theorem c1_counterexample :
    part000Candidates ("a\nb".toList) = [['a'], ['b']] ∧
    ['b'] ∈ part000Candidates ("a\nb".toList) ∧
    feedChunks [] [("a\nb".toList)] = ([['a']], ['b']) := by
  decide

/-- C1 (amended).  For the buffered framer of the Jira v1.3.0 and
Confluence servers the claim holds as stated: for every list of
newline-free messages, every newline-free trailing fragment and every
partition of their newline-joined concatenation into chunks, feeding the
chunks in order emits exactly the non-blank messages, in order and
byte-identical, with blank lines dropped and the trailing fragment
retained in the buffer. -/
theorem c1_framer_partition (msgs : List (List Char)) (tail : List Char)
    (chunks : List (List Char))
    (hm : ∀ m ∈ msgs, '\n' ∉ m) (ht : '\n' ∉ tail)
    (hpart : concatAll chunks = concatAll (msgs.map (fun m => m ++ ['\n'])) ++ tail) :
    feedChunks [] chunks = (msgs.filter (fun m => !isBlank m), tail) := by
  rw [feedChunks_spec chunks [] (by simp), List.nil_append, hpart,
    splitNl_joined msgs tail hm ht]
  have h1 : (msgs ++ [tail]).dropLast = msgs := by
    rw [dropLast_append_ne msgs [tail] (by simp)]
    simp [List.dropLast]
  have h2 : lastD (msgs ++ [tail]) = tail := by
    rw [lastD_append msgs [tail] (by simp)]
    simp [lastD]
  rw [h1, h2]
  rfl

/-- C1 witness: the three messages `"ab"`, `" "` (blank) and `"c"` with
trailing fragment `"xy"`, split into chunks that cut messages mid-way. -/
theorem c1_framer_partition_witness :
    feedChunks [] ["a".toList, "b\n \nc\nx".toList, "y".toList] =
      ([['a', 'b'], ['c']], ['x', 'y']) := by
  have h := c1_framer_partition ["ab".toList, " ".toList, "c".toList]
    ("xy".toList) ["a".toList, "b\n \nc\nx".toList, "y".toList]
    (by decide) (by decide) (by decide)
  exact h.trans (by decide)

theorem startsList_self_append (a b : List Char) : startsList a (a ++ b) = true := by
  induction a with
  | nil => simp [startsList]
  | cons x xs ih => simp [startsList, ih]

theorem containsSub_of_starts (needle hay : List Char)
    (h : startsList needle hay = true) : containsSub needle hay = true := by
  cases hay with
  | nil =>
    cases needle with
    | nil => simp [containsSub]
    | cons n ns => simp [startsList] at h
  | cons c cs => simp [containsSub, h]

theorem jiraProcessLines_append (parse : List Char → Except (List Char) RpcRequest)
    (bk : Nat → Except (List Char) Unit) (a b : List (List Char)) :
    jiraProcessLines parse bk (a ++ b) =
      jiraProcessLines parse bk a ++ jiraProcessLines parse bk b := by
  induction a with
  | nil => simp [jiraProcessLines]
  | cons l ls ih => simp [jiraProcessLines, ih]

/-- C2 counterexample.  In the Confluence dispatcher a framed message with
id absent and the unknown method `bogus` is a notification by the claim's
definition (id absent), yet the dispatcher emits one error reply for it
(code `-32601`, id null): the error path of the loop replies
unconditionally, only the success path checks the id. -/
theorem c2_counterexample :
    confProcessLine
        (fun _ => .ok ⟨none, some ("bogus".toList), none, []⟩)
        (confHandleRequest (fun _ _ => (.ok .toolOk, 0)))
        ("reqA".toList) =
      ([.failure .nul (-32601) ("Method not found".toList)
          ("Unknown method: bogus".toList)], 0) ∧
    (confProcessLine
        (fun _ => .ok ⟨none, some ("bogus".toList), none, []⟩)
        (confHandleRequest (fun _ _ => (.ok .toolOk, 0)))
        ("reqA".toList)).1.length = 1 := by
  decide

/-- C2 (amended).  In the Confluence dispatcher: a message whose method is
in the `notifications/` namespace or equals `initialized` receives no
reply; any other framed message receives exactly one error reply when its
handling fails (with id null when the id is absent or null), and exactly
one success reply when handling succeeds and its recovered id is
non-null — an id-absent or id-null message that succeeds receives none.
The Jira dispatcher emits exactly one reply for every successfully
decoded message, notifications included. -/
theorem c2_reply_multiplicity
    (parse : List Char → Except (List Char) RpcRequest)
    (h : RpcRequest → Except (List Char) ResPayload × Nat)
    (bk : Nat → Except (List Char) Unit)
    (line : List Char) (req : RpcRequest)
    (hp : parse line = .ok req) (hb : isBlank line = false) :
    (isNotifMethod req.method = true → (confProcessLine parse h line).1 = []) ∧
    (∀ res c, isNotifMethod req.method = false → h req = (.ok res, c) →
      (confProcessLine parse h line).1 =
        if confRequestId req.id ≠ .nul then [.success (confRequestId req.id) res]
        else []) ∧
    (∀ e c, isNotifMethod req.method = false → h req = (.error e, c) →
      (confProcessLine parse h line).1 =
        [.failure (confRequestId req.id) (classifyConf e).1 (classifyConf e).2 e]) ∧
    (jiraProcessLine parse bk line).1.length = 1 := by
  refine ⟨?_, ?_, ?_, ?_⟩
  · intro hn
    simp [confProcessLine, hb, hp, hn]
  · intro res c hn hh
    simp [confProcessLine, hb, hp, hn, hh]
  · intro e c hn hh
    simp [confProcessLine, hb, hp, hn, hh]
  · simp only [jiraProcessLine, hb, Bool.false_eq_true, if_false, hp]
    rcases jiraHandleRequest bk req with ⟨r, c⟩
    rcases r with r | e <;> simp

/-- C2 witness: a `notifications/initialized` message gets no reply from
the Confluence dispatcher, and the Jira dispatcher replies exactly once
to the same framed line. -/
theorem c2_reply_multiplicity_witness :
    (confProcessLine
        (fun _ => .ok ⟨some (.numV 7), some ("notifications/initialized".toList), none, []⟩)
        (fun _ => (.ok .toolOk, 0)) ("reqB".toList)).1 = [] ∧
    (jiraProcessLine
        (fun _ => .ok ⟨some (.numV 7), some ("notifications/initialized".toList), none, []⟩)
        (fun _ => .ok ()) ("reqB".toList)).1.length = 1 := by
  have h := c2_reply_multiplicity
    (fun _ => .ok ⟨some (.numV 7), some ("notifications/initialized".toList), none, []⟩)
    (fun _ => (.ok .toolOk, 0)) (fun _ => .ok ()) ("reqB".toList)
    ⟨some (.numV 7), some ("notifications/initialized".toList), none, []⟩
    rfl (by decide)
  exact ⟨h.1 (by decide), h.2.2.2⟩

/-- C3 counterexample.  A `tools/call` naming the unknown tool `nope` in
the Jira dispatcher is replied with code `-32000` (tool execution error),
not `-32601`: `handleToolCall` wraps its `Unknown tool` throw in
`Tool execution failed: ...`, which the dispatcher's classifier maps to
`-32000`. -/
theorem c3_counterexample :
    jiraProcessLine
        (fun _ => .ok ⟨some (.numV 1), some ("tools/call".toList),
          some ("nope".toList), []⟩)
        (fun _ => .ok ()) ("reqC".toList) =
      ([.failure (.numV 1) (-32000) ("Tool execution error".toList)
          ("Tool execution failed: Unknown tool: nope".toList)], 0) ∧
    ((-32000 : Int) ≠ -32601) := by
  decide

/-- C3 (amended).  An invocation naming a tool outside the registry is
reported as a tool-execution error, not `-32601`: the Jira dispatcher
replies with code `-32000` and message `Tool execution failed: Unknown
tool: ...` (provided the tool name does not accidentally contain one of
the classifier's substrings), with zero backend calls; the Confluence
`handleToolCall` converts its unknown-tool throw into an ordinary result
carrying an error-flagged content block, so its dispatcher emits a
success reply.  Only an unrecognized top-level method yields `-32601`,
in both dispatchers. -/
theorem c3_unknown_tool_and_method
    (parse : List Char → Except (List Char) RpcRequest)
    (bk : Nat → Except (List Char) Unit)
    (tc : Option (List Char) → List (List Char × JsVal) → Except (List Char) ResPayload × Nat)
    (exec : List Char → List (List Char × JsVal) → Except (List Char) Unit × Nat)
    (line m n : List Char) (idv : Option JsVal) (args : List (List Char × JsVal))
    (req : RpcRequest) (hb : isBlank line = false) :
    (parse line = .ok ⟨idv, some ("tools/call".toList), some n, args⟩ →
      n ∉ jiraToolNamesList →
      containsSub ("Unknown method".toList)
        ("Tool execution failed: Unknown tool: ".toList ++ n) = false →
      containsSub ("required".toList)
        ("Tool execution failed: Unknown tool: ".toList ++ n) = false →
      containsSub ("Invalid arguments".toList)
        ("Tool execution failed: Unknown tool: ".toList ++ n) = false →
      jiraProcessLine parse bk line =
        ([.failure (jiraRequestId idv) (-32000) ("Tool execution error".toList)
            ("Tool execution failed: Unknown tool: ".toList ++ n)], 0)) ∧
    (parse line = .ok req → req.method = some m →
      m ≠ "initialize".toList → m ≠ "tools/list".toList → m ≠ "tools/call".toList →
      jiraProcessLine parse bk line =
        ([.failure (jiraRequestId req.id) (-32601) ("Method not found".toList)
            ("Unknown method: ".toList ++ m)], 0)) ∧
    (parse line = .ok req → req.method = some m → isNotifMethod (some m) = false →
      m ≠ "initialize".toList → m ≠ "tools/list".toList → m ≠ "tools/call".toList →
      confProcessLine parse (confHandleRequest tc) line =
        ([.failure (confRequestId req.id) (-32601) ("Method not found".toList)
            ("Unknown method: ".toList ++ m)], 0)) ∧
    (n ∉ confToolNames →
      confHandleToolCall exec (some n) args =
        (.ok (.toolErrContent ("Error: Unknown tool: ".toList ++ n)), 0)) := by
  refine ⟨?_, ?_, ?_, ?_⟩
  · intro hp hn h1 h2 h3
    simp only [jiraToolNamesList, List.mem_cons, List.not_mem_nil, or_false] at hn
    push_neg at hn
    obtain ⟨e1, e2, e3, e4, e5, e6, e7, e8, e9, e10, e11⟩ := hn
    have hwrap : "Tool execution failed: ".toList ++ ("Unknown tool: ".toList ++ n) =
        "Tool execution failed: Unknown tool: ".toList ++ n := by
      rw [← List.append_assoc]
      congr 1
    have hcl : classifyJira ("Tool execution failed: Unknown tool: ".toList ++ n) =
        (-32000, "Tool execution error".toList) := by
      simp only [classifyJira, h1, h2, h3]
      rw [if_neg (by simp), if_neg (by simp [h2, h3])]
      rw [if_pos]
      exact containsSub_of_starts _ _ (by
        have hsplit : "Tool execution failed: Unknown tool: ".toList =
            "Tool execution failed".toList ++ ": Unknown tool: ".toList := by decide
        rw [hsplit, List.append_assoc]
        exact startsList_self_append _ _)
    have hrun : jiraToolRun bk (some n) args =
        (.error ("Unknown tool: ".toList ++ n), 0) := by
      simp only [jiraToolRun]
      rw [if_neg e1, if_neg e2, if_neg e3, if_neg e4, if_neg e5, if_neg e6,
        if_neg e7, if_neg e8, if_neg e9, if_neg e10, if_neg e11]
    have hreq : jiraHandleRequest bk
        ⟨idv, some ("tools/call".toList), some n, args⟩ =
        (.error ("Tool execution failed: Unknown tool: ".toList ++ n), 0) := by
      simp only [jiraHandleRequest]
      rw [if_neg (by decide), if_neg (by decide)]
      simp only [if_true, jiraHandleToolCall, hrun, hwrap]
    simp only [jiraProcessLine, hb, Bool.false_eq_true, if_false, hp, hreq, hcl]
  · intro hp hm h1 h2 h3
    have hcl : classifyJira ("Unknown method: ".toList ++ m) =
        (-32601, "Method not found".toList) := by
      simp only [classifyJira]
      rw [if_pos]
      exact containsSub_of_starts _ _ (by
        have hsplit : "Unknown method: ".toList =
            "Unknown method".toList ++ ": ".toList := by decide
        rw [hsplit, List.append_assoc]
        exact startsList_self_append _ _)
    have hreq : jiraHandleRequest bk req =
        (.error ("Unknown method: ".toList ++ m), 0) := by
      simp only [jiraHandleRequest, hm]
      rw [if_neg h1, if_neg h2, if_neg h3]
    simp only [jiraProcessLine, hb, Bool.false_eq_true, if_false, hp, hreq, hcl]
  · intro hp hm hnn h1 h2 h3
    have hcl : classifyConf ("Unknown method: ".toList ++ m) =
        (-32601, "Method not found".toList) := by
      simp only [classifyConf]
      rw [if_pos]
      exact containsSub_of_starts _ _ (by
        have hsplit : "Unknown method: ".toList =
            "Unknown method".toList ++ ": ".toList := by decide
        rw [hsplit, List.append_assoc]
        exact startsList_self_append _ _)
    have hreq : confHandleRequest tc req =
        (.error ("Unknown method: ".toList ++ m), 0) := by
      simp only [confHandleRequest, hm]
      rw [if_neg h1, if_neg h2, if_neg h3]
    simp only [confProcessLine, hb, Bool.false_eq_true, if_false, hp, hm, hnn,
      hreq, hcl]
  · intro hn
    simp [confHandleToolCall, hn]

/-- C3 witness: the unknown tool `frobnicate` and the unknown method
`shutdown`, at concrete inputs. -/
theorem c3_unknown_tool_and_method_witness :
    jiraProcessLine
        (fun _ => .ok ⟨some (.numV 2), some ("tools/call".toList),
          some ("frobnicate".toList), []⟩)
        (fun _ => .ok ()) ("reqD".toList) =
      ([.failure (.numV 2) (-32000) ("Tool execution error".toList)
          ("Tool execution failed: Unknown tool: ".toList ++ "frobnicate".toList)], 0) ∧
    jiraProcessLine
        (fun _ => .ok ⟨some (.numV 3), some ("shutdown".toList), none, []⟩)
        (fun _ => .ok ()) ("reqE".toList) =
      ([.failure (.numV 3) (-32601) ("Method not found".toList)
          ("Unknown method: ".toList ++ "shutdown".toList)], 0) ∧
    confHandleToolCall (fun _ _ => (.ok (), 0)) (some ("frobnicate".toList)) [] =
      (.ok (.toolErrContent ("Error: Unknown tool: ".toList ++ "frobnicate".toList)), 0) := by
  refine ⟨?_, ?_, ?_⟩
  · exact (c3_unknown_tool_and_method
      (fun _ => .ok ⟨some (.numV 2), some ("tools/call".toList),
        some ("frobnicate".toList), []⟩)
      (fun _ => .ok ()) (fun _ _ => (.ok .toolOk, 0)) (fun _ _ => (.ok (), 0))
      ("reqD".toList) ("x".toList) ("frobnicate".toList) (some (.numV 2)) []
      ⟨some (.numV 2), some ("tools/call".toList), some ("frobnicate".toList), []⟩
      (by decide)).1 rfl (by decide) (by decide) (by decide) (by decide)
  · exact ((c3_unknown_tool_and_method
      (fun _ => .ok ⟨some (.numV 3), some ("shutdown".toList), none, []⟩)
      (fun _ => .ok ()) (fun _ _ => (.ok .toolOk, 0)) (fun _ _ => (.ok (), 0))
      ("reqE".toList) ("shutdown".toList) ("y".toList) none []
      ⟨some (.numV 3), some ("shutdown".toList), none, []⟩
      (by decide)).2.1) rfl rfl (by decide) (by decide) (by decide)
  · exact ((c3_unknown_tool_and_method
      (fun _ => .ok ⟨some (.numV 3), some ("shutdown".toList), none, []⟩)
      (fun _ => .ok ()) (fun _ _ => (.ok .toolOk, 0)) (fun _ _ => (.ok (), 0))
      ("reqE".toList) ("shutdown".toList) ("frobnicate".toList) none []
      ⟨some (.numV 3), some ("shutdown".toList), none, []⟩
      (by decide)).2.2.2) (by decide)

/-- C9 counterexample.  The legacy Jira server (part_000), also cited by
the claim, wraps its whole line loop in one try: fed the chunk
`"bad\nok\n"` whose first line fails to decode, it emits a single error
reply with code `-32603` — not `-32700` — and abandons the remaining
valid line of the same chunk instead of continuing. -/
theorem c9_counterexample :
    part000ProcessData
        (fun l => if l = "bad".toList then .error ("Unexpected token".toList)
          else .ok ⟨some (.numV 1), some ("tools/list".toList), none, []⟩)
        (fun _ => .ok ()) ("bad\nok\n".toList) =
      [.failure none (-32603) ("Unexpected token".toList)] ∧
    ((-32603 : Int) ≠ -32700) := by
  decide

/-- C9 (amended).  In the Jira v1.3.0 and Confluence dispatchers the claim
holds: a line that fails to decode yields exactly one error reply with
code `-32700` and id null, and the remaining lines of the chunk are
processed unaffected (the loop's replies are the concatenation of the
per-line replies).  The legacy Jira server instead emits one `-32603`
reply and abandons the chunk. -/
theorem c9_parse_error_isolation
    (parse : List Char → Except (List Char) RpcRequest)
    (bk : Nat → Except (List Char) Unit)
    (h : RpcRequest → Except (List Char) ResPayload × Nat)
    (line e : List Char) (pre suf : List (List Char))
    (hp : parse line = .error e) (hb : isBlank line = false) :
    jiraProcessLine parse bk line =
      ([.failure .nul (-32700) ("Parse error".toList) e], 0) ∧
    confProcessLine parse h line =
      ([.failure .nul (-32700) ("Parse error".toList) e], 0) ∧
    jiraProcessLines parse bk (pre ++ line :: suf) =
      jiraProcessLines parse bk pre ++
        [.failure .nul (-32700) ("Parse error".toList) e] ++
        jiraProcessLines parse bk suf := by
  have h1 : jiraProcessLine parse bk line =
      ([.failure .nul (-32700) ("Parse error".toList) e], 0) := by
    simp [jiraProcessLine, hb, hp]
  refine ⟨h1, ?_, ?_⟩
  · simp [confProcessLine, hb, hp]
  · rw [jiraProcessLines_append]
    simp [jiraProcessLines, h1]

/-- C9 witness: a failing line between two processed lines. -/
theorem c9_parse_error_isolation_witness :
    jiraProcessLines
        (fun l => if l = "bad".toList then .error ("Unexpected token".toList)
          else .ok ⟨some (.numV 1), some ("tools/list".toList), none, []⟩)
        (fun _ => .ok ())
        (["ok1".toList] ++ "bad".toList :: ["ok2".toList]) =
      jiraProcessLines
        (fun l => if l = "bad".toList then .error ("Unexpected token".toList)
          else .ok ⟨some (.numV 1), some ("tools/list".toList), none, []⟩)
        (fun _ => .ok ()) ["ok1".toList] ++
      [.failure .nul (-32700) ("Parse error".toList) ("Unexpected token".toList)] ++
      jiraProcessLines
        (fun l => if l = "bad".toList then .error ("Unexpected token".toList)
          else .ok ⟨some (.numV 1), some ("tools/list".toList), none, []⟩)
        (fun _ => .ok ()) ["ok2".toList] := by
  exact (c9_parse_error_isolation
    (fun l => if l = "bad".toList then .error ("Unexpected token".toList)
      else .ok ⟨some (.numV 1), some ("tools/list".toList), none, []⟩)
    (fun _ => .ok ()) (fun _ => (.ok .toolOk, 0))
    ("bad".toList) ("Unexpected token".toList)
    ["ok1".toList] ["ok2".toList] rfl (by decide)).2.2

/-- C10.  The Jira v1.3.0 dispatcher recovers the reply id with the
truthiness test `request.id || null`, so a present but falsy id (0,
false, the empty string, or null) is replaced by null in every reply it
emits, losing correlation; the Confluence dispatcher tests the id
against undefined and echoes the falsy id unchanged in any reply it
emits. -/
theorem c10_falsy_id
    (parse : List Char → Except (List Char) RpcRequest)
    (bk : Nat → Except (List Char) Unit)
    (h : RpcRequest → Except (List Char) ResPayload × Nat)
    (line : List Char) (req : RpcRequest) (v : JsVal)
    (hp : parse line = .ok req) (hb : isBlank line = false)
    (hid : req.id = some v) (hf : jsTruthy v = false) :
    jiraRequestId req.id = .nul ∧
    confRequestId req.id = v ∧
    (∀ r ∈ (jiraProcessLine parse bk line).1, replyId r = .nul) ∧
    (∀ r ∈ (confProcessLine parse h line).1, replyId r = v) := by
  have hj : jiraRequestId req.id = .nul := by
    simp [jiraRequestId, hid, hf]
  have hc : confRequestId req.id = v := by
    simp [confRequestId, hid]
  refine ⟨hj, hc, ?_, ?_⟩
  · intro r hr
    simp only [jiraProcessLine, hb, Bool.false_eq_true, if_false, hp] at hr
    rcases hh : jiraHandleRequest bk req with ⟨res, c⟩
    rw [hh] at hr
    rcases res with res | e <;>
      simp_all [replyId, hj]
  · intro r hr
    simp only [confProcessLine, hb, Bool.false_eq_true, if_false, hp] at hr
    by_cases hn : isNotifMethod req.method
    · simp [hn] at hr
    · rcases hh : h req with ⟨res, c⟩
      rw [hh] at hr
      simp only [Bool.not_eq_true] at hn
      rcases res with e | res
      · simp_all [replyId, hc]
      · simp only [hn, Bool.false_eq_true, if_false] at hr
        split at hr <;> simp_all [replyId, hc]

/-- C10 witness: the falsy id 0, on a `tools/list` request. -/
theorem c10_falsy_id_witness :
    jiraRequestId (some (.numV 0)) = .nul ∧
    confRequestId (some (.numV 0)) = .numV 0 ∧
    (∀ r ∈ (jiraProcessLine
        (fun _ => .ok ⟨some (.numV 0), some ("tools/list".toList), none, []⟩)
        (fun _ => .ok ()) ("reqF".toList)).1, replyId r = .nul) := by
  have h := c10_falsy_id
    (fun _ => .ok ⟨some (.numV 0), some ("tools/list".toList), none, []⟩)
    (fun _ => .ok ()) (fun _ => (.ok .toolOk, 0)) ("reqF".toList)
    ⟨some (.numV 0), some ("tools/list".toList), none, []⟩ (.numV 0)
    rfl (by decide) rfl (by decide)
  exact ⟨h.1, h.2.1, h.2.2.1⟩

theorem lookupEntry_eraseEntry {V : Type} (cache : List (List Char × V × Nat))
    (key : List Char) : lookupEntry (eraseEntry cache key) key = none := by
  induction cache with
  | nil => simp [eraseEntry, lookupEntry]
  | cons e rest ih =>
    rcases e with ⟨k, v, ts⟩
    by_cases h : k = key
    · simp [eraseEntry, h, ih]
    · simp [eraseEntry, lookupEntry, h, ih]

/-- C5.  The cache lookup returns the stored value exactly when an entry
exists whose age `now - createdAt` is below the TTL, and otherwise
returns absent having removed the entry; consequently a GET repeated
within one TTL window of a first successful GET performs zero further
backend calls (one call in total), while repeating it once the TTL has
elapsed performs a second backend call. -/
theorem c5_cache_ttl {V : Type} (now : Nat) (cache : List (List Char × V × Nat))
    (key : List Char) (v : V) (http : List Char → Except (List Char) V)
    (e g : List Char) (w : V) (cache0 : List (List Char × V × Nat))
    (t1 t2 t3 : Nat)
    (hhttp : http e = .ok w)
    (hfresh : lookupEntry cache0 (confCacheKey e g) = none)
    (h12 : t2 - t1 < cacheTimeout)
    (h13 : cacheTimeout ≤ t3 - t1) :
    ((getFromCache now cache key).1 = some v ↔
      ∃ ts, lookupEntry cache key = some (v, ts) ∧ now - ts < cacheTimeout) ∧
    ((getFromCache now cache key).1 = none →
      lookupEntry (getFromCache now cache key).2 key = none) ∧
    confMakeRequest http t1 cache0 e g true =
      (.ok w, setToCache t1 (eraseEntry cache0 (confCacheKey e g)) (confCacheKey e g) w, 1) ∧
    confMakeRequest http t2
      (setToCache t1 (eraseEntry cache0 (confCacheKey e g)) (confCacheKey e g) w) e g true =
      (.ok w, setToCache t1 (eraseEntry cache0 (confCacheKey e g)) (confCacheKey e g) w, 0) ∧
    (confMakeRequest http t3
      (setToCache t1 (eraseEntry cache0 (confCacheKey e g)) (confCacheKey e g) w) e g true).2.2 = 1 := by
  refine ⟨?_, ?_, ?_, ?_, ?_⟩
  · constructor
    · intro h
      rcases hl : lookupEntry cache key with _ | ⟨u, ts⟩
      · simp [getFromCache, hl] at h
      · by_cases hage : now - ts < cacheTimeout
        · simp only [getFromCache, hl, if_pos hage] at h
          exact ⟨ts, by simp_all⟩
        · simp [getFromCache, hl, if_neg hage] at h
    · rintro ⟨ts, hl, hage⟩
      simp [getFromCache, hl, hage]
  · intro h
    rcases hl : lookupEntry cache key with _ | ⟨u, ts⟩
    · simp [getFromCache, hl, lookupEntry_eraseEntry]
    · by_cases hage : now - ts < cacheTimeout
      · simp [getFromCache, hl, if_pos hage] at h
      · simp [getFromCache, hl, if_neg hage, lookupEntry_eraseEntry]
  · simp [confMakeRequest, getFromCache, hfresh, hhttp]
  · have hl : lookupEntry
        (setToCache t1 (eraseEntry cache0 (confCacheKey e g)) (confCacheKey e g) w)
        (confCacheKey e g) = some (w, t1) := by
      simp [setToCache, lookupEntry]
    simp [confMakeRequest, getFromCache, hl, h12]
  · have hl : lookupEntry
        (setToCache t1 (eraseEntry cache0 (confCacheKey e g)) (confCacheKey e g) w)
        (confCacheKey e g) = some (w, t1) := by
      simp [setToCache, lookupEntry]
    have hage : ¬ (t3 - t1 < cacheTimeout) := by omega
    rcases hh : http e with he | hw2 <;>
      simp [confMakeRequest, getFromCache, hl, if_neg hage, hh]

/-- C5 witness: a concrete cache and scenario (TTL is 300000 ms; the
second call at 200000 ms hits, the third at 400000 ms misses). -/
theorem c5_cache_ttl_witness :
    ((getFromCache (100 : Nat) [(['k'], (5 : Nat), 50)] ['k']).1 = some 5 ↔
      ∃ ts, lookupEntry [(['k'], (5 : Nat), 50)] ['k'] = some (5, ts) ∧
        100 - ts < cacheTimeout) ∧
    confMakeRequest (fun _ => .ok (7 : Nat)) 0 [] ['e'] ['g'] true =
      (.ok 7, [(confCacheKey ['e'] ['g'], 7, 0)], 1) ∧
    confMakeRequest (fun _ => .ok (7 : Nat)) 200000
      [(confCacheKey ['e'] ['g'], 7, 0)] ['e'] ['g'] true =
      (.ok 7, [(confCacheKey ['e'] ['g'], 7, 0)], 0) ∧
    (confMakeRequest (fun _ => .ok (7 : Nat)) 400000
      [(confCacheKey ['e'] ['g'], 7, 0)] ['e'] ['g'] true).2.2 = 1 := by
  have h := c5_cache_ttl (V := Nat) 100 [(['k'], 5, 50)] ['k'] 5
    (fun _ => .ok 7) ['e'] ['g'] 7 [] 0 200000 400000
    rfl (by decide) (by decide) (by decide)
  refine ⟨h.1, ?_, ?_, ?_⟩
  · exact h.2.2.1.trans rfl
  · exact h.2.2.2.1.trans rfl
  · exact h.2.2.2.2

/-- C4 counterexample.  The Confluence dispatcher, also cited by the
claim, performs no schema validation: a `tools/call` of `get_page` whose
arguments omit the required `pageId` interpolates `undefined` into the
endpoint and performs one backend call, and the dispatcher emits a
success reply — not a `-32602` error with zero backend calls. -/
theorem c4_counterexample :
    (confGetPage (fun _ => .ok (42 : Nat)) ("g".toList) 0 [] none).2.2 = 1 ∧
    confGetPageEndpoint none = "/content/undefined?expand=body.storage,version".toList ∧
    confProcessLine
        (fun _ => .ok ⟨some (.numV 1), some ("tools/call".toList),
          some ("get_page".toList), []⟩)
        (confHandleRequest (confHandleToolCall (fun n args =>
          if n = "get_page".toList then
            ((match (confGetPage (fun _ => .ok (42 : Nat)) ("g".toList) 0 []
                (argLookup args ("pageId".toList))).1 with
              | .ok _ => Except.ok ()
              | .error e2 => Except.error e2),
             (confGetPage (fun _ => .ok (42 : Nat)) ("g".toList) 0 []
                (argLookup args ("pageId".toList))).2.2)
          else (.ok (), 0))))
        ("reqG".toList) =
      ([.success (.numV 1) .toolOk], 1) := by
  refine ⟨rfl, by decide, by decide⟩

/-- C4 (amended).  In the Jira dispatcher the claim holds: every
`tools/call` whose arguments omit a parameter listed in the named tool's
`required` schema is replied with exactly one `-32602` (Invalid params)
error and performs zero backend calls.  The Confluence dispatcher
performs no such validation (see the counterexample). -/
theorem c4_missing_required
    (parse : List Char → Except (List Char) RpcRequest)
    (bk : Nat → Except (List Char) Unit)
    (line : List Char) (idv : Option JsVal) (n p : List Char)
    (args : List (List Char × JsVal))
    (hp : parse line = .ok ⟨idv, some ("tools/call".toList), some n, args⟩)
    (hb : isBlank line = false)
    (hreq : p ∈ jiraRequiredOf n)
    (hmiss : argLookup args p = none) :
    ∃ msg, jiraProcessLine parse bk line =
      ([.failure (jiraRequestId idv) (-32602) ("Invalid params".toList) msg], 0) := by
  have hfalse : truthyOpt (argLookup args p) = false := by
    simp [hmiss, truthyOpt]
  by_cases hn1 : n = "get_issue".toList
  · subst hn1
    rw [show jiraRequiredOf ("get_issue".toList) = ["issueKey".toList] from by decide,
      List.mem_singleton] at hreq
    subst hreq
    have hrun : jiraToolRun bk (some ("get_issue".toList)) args =
        (.error ("issueKey is required".toList), 0) := by
      simp only [jiraToolRun, reduceIte]
      rw [if_neg (by decide),
        if_pos (by simp only [Bool.not_eq_true']; exact hfalse)]
    have hhr : jiraHandleRequest bk
        ⟨idv, some ("tools/call".toList), some ("get_issue".toList), args⟩ =
        (.error ("Tool execution failed: issueKey is required".toList), 0) := by
      simp only [jiraHandleRequest]
      rw [if_neg (by decide), if_neg (by decide)]
      simp only [if_true, jiraHandleToolCall, hrun]
      rfl
    refine ⟨"Tool execution failed: issueKey is required".toList, ?_⟩
    simp only [jiraProcessLine, hb, Bool.false_eq_true, if_false, hp, hhr,
      show classifyJira ("Tool execution failed: issueKey is required".toList) =
        (-32602, "Invalid params".toList) from by decide]
  by_cases hn2 : n = "search_issues".toList
  · subst hn2
    rw [show jiraRequiredOf ("search_issues".toList) = ["jql".toList] from by decide,
      List.mem_singleton] at hreq
    subst hreq
    have hrun : jiraToolRun bk (some ("search_issues".toList)) args =
        (.error ("jql is required".toList), 0) := by
      simp only [jiraToolRun, reduceIte]
      rw [if_neg (by decide), if_neg (by decide),
        if_pos (by simp only [Bool.not_eq_true']; exact hfalse)]
    have hhr : jiraHandleRequest bk
        ⟨idv, some ("tools/call".toList), some ("search_issues".toList), args⟩ =
        (.error ("Tool execution failed: jql is required".toList), 0) := by
      simp only [jiraHandleRequest]
      rw [if_neg (by decide), if_neg (by decide)]
      simp only [if_true, jiraHandleToolCall, hrun]
      rfl
    refine ⟨"Tool execution failed: jql is required".toList, ?_⟩
    simp only [jiraProcessLine, hb, Bool.false_eq_true, if_false, hp, hhr,
      show classifyJira ("Tool execution failed: jql is required".toList) =
        (-32602, "Invalid params".toList) from by decide]
  by_cases hn3 : n = "create_issue".toList
  · subst hn3
    rw [show jiraRequiredOf ("create_issue".toList) = ["projectKey".toList, "issueType".toList, "summary".toList] from by decide] at hreq
    simp only [List.mem_cons, List.mem_singleton, List.not_mem_nil, or_false] at hreq
    have hrun : jiraToolRun bk (some ("create_issue".toList)) args =
        (.error ("projectKey, issueType, and summary are required".toList), 0) := by
      simp only [jiraToolRun, reduceIte]
      rcases hreq with h | h | h
      · subst h
        rw [if_neg (by decide), if_neg (by decide), if_neg (by decide),
          if_pos (by simp only [Bool.or_eq_true, Bool.not_eq_true']; exact Or.inl (Or.inl hfalse))]
      · subst h
        rw [if_neg (by decide), if_neg (by decide), if_neg (by decide),
          if_pos (by simp only [Bool.or_eq_true, Bool.not_eq_true']; exact Or.inl (Or.inr hfalse))]
      · subst h
        rw [if_neg (by decide), if_neg (by decide), if_neg (by decide),
          if_pos (by simp only [Bool.or_eq_true, Bool.not_eq_true']; exact Or.inr hfalse)]
    have hhr : jiraHandleRequest bk
        ⟨idv, some ("tools/call".toList), some ("create_issue".toList), args⟩ =
        (.error ("Tool execution failed: projectKey, issueType, and summary are required".toList), 0) := by
      simp only [jiraHandleRequest]
      rw [if_neg (by decide), if_neg (by decide)]
      simp only [if_true, jiraHandleToolCall, hrun]
      rfl
    refine ⟨"Tool execution failed: projectKey, issueType, and summary are required".toList, ?_⟩
    simp only [jiraProcessLine, hb, Bool.false_eq_true, if_false, hp, hhr,
      show classifyJira ("Tool execution failed: projectKey, issueType, and summary are required".toList) =
        (-32602, "Invalid params".toList) from by decide]
  by_cases hn4 : n = "update_issue".toList
  · subst hn4
    rw [show jiraRequiredOf ("update_issue".toList) = ["issueKey".toList, "fields".toList] from by decide] at hreq
    simp only [List.mem_cons, List.mem_singleton, List.not_mem_nil, or_false] at hreq
    have hrun : jiraToolRun bk (some ("update_issue".toList)) args =
        (.error ("issueKey and fields are required".toList), 0) := by
      simp only [jiraToolRun, reduceIte]
      rcases hreq with h | h
      · subst h
        rw [if_neg (by decide), if_neg (by decide), if_neg (by decide), if_neg (by decide),
          if_pos (by simp only [Bool.or_eq_true, Bool.not_eq_true']; exact Or.inl hfalse)]
      · subst h
        rw [if_neg (by decide), if_neg (by decide), if_neg (by decide), if_neg (by decide),
          if_pos (by simp only [Bool.or_eq_true, Bool.not_eq_true']; exact Or.inr hfalse)]
    have hhr : jiraHandleRequest bk
        ⟨idv, some ("tools/call".toList), some ("update_issue".toList), args⟩ =
        (.error ("Tool execution failed: issueKey and fields are required".toList), 0) := by
      simp only [jiraHandleRequest]
      rw [if_neg (by decide), if_neg (by decide)]
      simp only [if_true, jiraHandleToolCall, hrun]
      rfl
    refine ⟨"Tool execution failed: issueKey and fields are required".toList, ?_⟩
    simp only [jiraProcessLine, hb, Bool.false_eq_true, if_false, hp, hhr,
      show classifyJira ("Tool execution failed: issueKey and fields are required".toList) =
        (-32602, "Invalid params".toList) from by decide]
  by_cases hn5 : n = "add_comment".toList
  · subst hn5
    rw [show jiraRequiredOf ("add_comment".toList) = ["issueKey".toList, "comment".toList] from by decide] at hreq
    simp only [List.mem_cons, List.mem_singleton, List.not_mem_nil, or_false] at hreq
    have hrun : jiraToolRun bk (some ("add_comment".toList)) args =
        (.error ("issueKey and comment are required".toList), 0) := by
      simp only [jiraToolRun, reduceIte]
      rcases hreq with h | h
      · subst h
        rw [if_neg (by decide), if_neg (by decide), if_neg (by decide), if_neg (by decide), if_neg (by decide), if_neg (by decide),
          if_pos (by simp only [Bool.or_eq_true, Bool.not_eq_true']; exact Or.inl hfalse)]
      · subst h
        rw [if_neg (by decide), if_neg (by decide), if_neg (by decide), if_neg (by decide), if_neg (by decide), if_neg (by decide),
          if_pos (by simp only [Bool.or_eq_true, Bool.not_eq_true']; exact Or.inr hfalse)]
    have hhr : jiraHandleRequest bk
        ⟨idv, some ("tools/call".toList), some ("add_comment".toList), args⟩ =
        (.error ("Tool execution failed: issueKey and comment are required".toList), 0) := by
      simp only [jiraHandleRequest]
      rw [if_neg (by decide), if_neg (by decide)]
      simp only [if_true, jiraHandleToolCall, hrun]
      rfl
    refine ⟨"Tool execution failed: issueKey and comment are required".toList, ?_⟩
    simp only [jiraProcessLine, hb, Bool.false_eq_true, if_false, hp, hhr,
      show classifyJira ("Tool execution failed: issueKey and comment are required".toList) =
        (-32602, "Invalid params".toList) from by decide]
  by_cases hn6 : n = "get_fix_versions".toList
  · subst hn6
    rw [show jiraRequiredOf ("get_fix_versions".toList) = ["projectKey".toList] from by decide,
      List.mem_singleton] at hreq
    subst hreq
    have hrun : jiraToolRun bk (some ("get_fix_versions".toList)) args =
        (.error ("projectKey is required".toList), 0) := by
      simp only [jiraToolRun, reduceIte]
      rw [if_neg (by decide), if_neg (by decide), if_neg (by decide), if_neg (by decide), if_neg (by decide), if_neg (by decide), if_neg (by decide), if_neg (by decide), if_neg (by decide),
        if_pos (by simp only [Bool.not_eq_true']; exact hfalse)]
    have hhr : jiraHandleRequest bk
        ⟨idv, some ("tools/call".toList), some ("get_fix_versions".toList), args⟩ =
        (.error ("Tool execution failed: projectKey is required".toList), 0) := by
      simp only [jiraHandleRequest]
      rw [if_neg (by decide), if_neg (by decide)]
      simp only [if_true, jiraHandleToolCall, hrun]
      rfl
    refine ⟨"Tool execution failed: projectKey is required".toList, ?_⟩
    simp only [jiraProcessLine, hb, Bool.false_eq_true, if_false, hp, hhr,
      show classifyJira ("Tool execution failed: projectKey is required".toList) =
        (-32602, "Invalid params".toList) from by decide]
  by_cases hn7 : n = "get_components".toList
  · subst hn7
    rw [show jiraRequiredOf ("get_components".toList) = ["projectKey".toList] from by decide,
      List.mem_singleton] at hreq
    subst hreq
    have hrun : jiraToolRun bk (some ("get_components".toList)) args =
        (.error ("projectKey is required".toList), 0) := by
      simp only [jiraToolRun, reduceIte]
      rw [if_neg (by decide), if_neg (by decide), if_neg (by decide), if_neg (by decide), if_neg (by decide), if_neg (by decide), if_neg (by decide), if_neg (by decide), if_neg (by decide), if_neg (by decide),
        if_pos (by simp only [Bool.not_eq_true']; exact hfalse)]
    have hhr : jiraHandleRequest bk
        ⟨idv, some ("tools/call".toList), some ("get_components".toList), args⟩ =
        (.error ("Tool execution failed: projectKey is required".toList), 0) := by
      simp only [jiraHandleRequest]
      rw [if_neg (by decide), if_neg (by decide)]
      simp only [if_true, jiraHandleToolCall, hrun]
      rfl
    refine ⟨"Tool execution failed: projectKey is required".toList, ?_⟩
    simp only [jiraProcessLine, hb, Bool.false_eq_true, if_false, hp, hhr,
      show classifyJira ("Tool execution failed: projectKey is required".toList) =
        (-32602, "Invalid params".toList) from by decide]
  · exfalso
    simp only [jiraRequiredOf, if_neg hn1, if_neg hn2, if_neg hn3, if_neg hn4, if_neg hn5, if_neg hn6, if_neg hn7, List.not_mem_nil] at hreq

/-- C4 witness: `get_issue` invoked with empty arguments yields the
`-32602` reply with zero backend calls. -/
theorem c4_missing_required_witness :
    jiraProcessLine
        (fun _ => .ok ⟨some (.numV 4), some ("tools/call".toList),
          some ("get_issue".toList), []⟩)
        (fun _ => .ok ()) ("reqH".toList) =
      ([.failure (.numV 4) (-32602) ("Invalid params".toList)
          ("Tool execution failed: issueKey is required".toList)], 0) := by
  obtain ⟨msg, hmsg⟩ := c4_missing_required
    (fun _ => .ok ⟨some (.numV 4), some ("tools/call".toList),
      some ("get_issue".toList), []⟩)
    (fun _ => .ok ()) ("reqH".toList) (some (.numV 4)) ("get_issue".toList)
    ("issueKey".toList) [] rfl (by decide) (by decide) rfl
  exact (by decide)

theorem trimChars_length_le (s : List Char) : (trimChars s).length ≤ s.length := by
  have h1 : (s.dropWhile isJsWs).length ≤ s.length :=
    (List.dropWhile_sublist (l := s) (p := isJsWs)).length_le
  have h2 : ((s.dropWhile isJsWs).reverse.dropWhile isJsWs).length ≤
      (s.dropWhile isJsWs).reverse.length :=
    (List.dropWhile_sublist (l := (s.dropWhile isJsWs).reverse) (p := isJsWs)).length_le
  simp only [trimChars, trimLead, List.length_reverse] at *
  omega

theorem summarizeLoop_length_le (ss : List (List Char)) (summary : List Char) :
    (summarizeLoop summary ss).length ≤ max summary.length 402 := by
  induction ss generalizing summary with
  | nil => simp [summarizeLoop]
  | cons s ss ih =>
    simp only [summarizeLoop]
    by_cases hbrk : 400 < (summary ++ s).length
    · rw [if_pos hbrk]
      exact le_max_left _ _
    · rw [if_neg hbrk]
      by_cases hblank : (trimChars s).isEmpty
      · rw [if_pos hblank]
        exact ih summary
      · rw [if_neg hblank]
        have hlen : (summary ++ trimChars s ++ ['.', ' ']).length ≤ 402 := by
          have h2 := trimChars_length_le s
          simp only [List.length_append, not_lt] at hbrk ⊢
          simp only [List.length_cons, List.length_nil]
          omega
        have := ih (summary ++ trimChars s ++ ['.', ' '])
        omega

theorem summarizeLoop_take (ss : List (List Char)) (summary : List Char) :
    ∃ n, summarizeLoop summary ss = accumAll summary (ss.take n) ∧
      (n = ss.length ∨ ∃ s rest, ss.drop n = s :: rest ∧
        400 < (accumAll summary (ss.take n) ++ s).length) := by
  induction ss generalizing summary with
  | nil => exact ⟨0, by simp [summarizeLoop, accumAll], Or.inl (by simp)⟩
  | cons s ss ih =>
    by_cases hbrk : 400 < (summary ++ s).length
    · refine ⟨0, ?_, Or.inr ⟨s, ss, by simp, ?_⟩⟩
      · simp only [summarizeLoop]
        rw [if_pos hbrk]
        simp [accumAll]
      · simpa [accumAll] using hbrk
    · by_cases hblank : (trimChars s).isEmpty
      · obtain ⟨n, hEq, hC⟩ := ih summary
        refine ⟨n + 1, ?_, ?_⟩
        · rw [show summarizeLoop summary (s :: ss) = summarizeLoop summary ss from by
            simp only [summarizeLoop]
            rw [if_neg hbrk, if_pos hblank]]
          rw [hEq]
          simp [List.take_succ_cons, accumAll, hblank]
        · rcases hC with h | ⟨s2, rest, hd, hb⟩
          · exact Or.inl (by simp [h])
          · refine Or.inr ⟨s2, rest, by simpa using hd, ?_⟩
            simpa [List.take_succ_cons, accumAll, hblank] using hb
      · obtain ⟨n, hEq, hC⟩ := ih (summary ++ trimChars s ++ ['.', ' '])
        refine ⟨n + 1, ?_, ?_⟩
        · rw [show summarizeLoop summary (s :: ss) =
              summarizeLoop (summary ++ trimChars s ++ ['.', ' ']) ss from by
            simp only [summarizeLoop]
            rw [if_neg hbrk, if_neg hblank]]
          rw [hEq]
          simp [List.take_succ_cons, accumAll, hblank]
        · rcases hC with h | ⟨s2, rest, hd, hb⟩
          · exact Or.inl (by simp [h])
          · refine Or.inr ⟨s2, rest, by simpa using hd, ?_⟩
            simpa [List.take_succ_cons, accumAll, hblank] using hb

/-- C6.  The normalizer's output never exceeds the 500-character cap; a
document whose cleaned text is at or under the cap is returned unchanged
with no marker; a document over the cap is returned as the whole-sentence
accumulation of a prefix of its sentences — cut where the next sentence
would push past the inner 400-character cap — trimmed and with the `...`
marker appended, never mid-sentence. -/
theorem c6_normalizer (conv : List Char → List Char) (html : List Char) :
    (htmlToText conv html).length ≤ 500 ∧
    (html ≠ [] → (cleanTextOf conv html).length ≤ 500 →
      htmlToText conv html = cleanTextOf conv html) ∧
    (html ≠ [] → 500 < (cleanTextOf conv html).length →
      ∃ n, htmlToText conv html =
        trimChars (accumAll [] ((splitSentences (cleanTextOf conv html)).take n)) ++
          "...".toList ∧
        (n = (splitSentences (cleanTextOf conv html)).length ∨
          ∃ s rest, (splitSentences (cleanTextOf conv html)).drop n = s :: rest ∧
            400 < (accumAll [] ((splitSentences (cleanTextOf conv html)).take n) ++ s).length)) := by
  by_cases hhtml : html.isEmpty
  · refine ⟨by simp [htmlToText, hhtml], fun hne _ => ?_, fun hne _ => ?_⟩ <;>
      exact absurd (List.isEmpty_iff.mp hhtml) hne
  · have hsum := summarizeLoop_length_le (splitSentences (cleanTextOf conv html)) []
    simp only [List.length_nil, Nat.max_eq_right (by omega : (0 : Nat) ≤ 402)] at hsum
    by_cases hct : 500 < (cleanTextOf conv html).length
    · have hmarker : (summarizeLoop [] (splitSentences (cleanTextOf conv html))).length <
          (cleanTextOf conv html).length := by omega
      have heq : htmlToText conv html =
          trimChars (summarizeLoop [] (splitSentences (cleanTextOf conv html))) ++
            "...".toList := by
        simp [htmlToText, hhtml, summarizeIfLong, hct, hmarker]
      refine ⟨?_, fun _ hle => absurd hle (by omega), fun _ _ => ?_⟩
      · rw [heq]
        have ht := trimChars_length_le (summarizeLoop [] (splitSentences (cleanTextOf conv html)))
        simp only [List.length_append]
        have : ("...".toList).length = 3 := by decide
        omega
      · obtain ⟨n, hEq, hC⟩ := summarizeLoop_take (splitSentences (cleanTextOf conv html)) []
        exact ⟨n, by rw [heq, hEq], hC⟩
    · refine ⟨?_, fun _ _ => ?_, fun _ hgt => absurd hgt hct⟩
      · simp only [htmlToText, hhtml, Bool.false_eq_true, if_false, summarizeIfLong,
          if_neg hct]
        omega
      · simp [htmlToText, hhtml, summarizeIfLong, hct]

/-- C6 witness: a short document is returned unchanged; a long document
(thirty copies of one sentence) is truncated at a sentence boundary to
at most 500 characters with the marker appended. -/
theorem c6_normalizer_witness :
    (htmlToText (fun _ => concatAll (List.replicate 30 ("word word word apple. ".toList)))
      ['x']).length ≤ 500 ∧
    htmlToText (fun _ => "short text.".toList) ['x'] =
      cleanTextOf (fun _ => "short text.".toList) ['x'] ∧
    (∃ n, htmlToText (fun _ => concatAll (List.replicate 30 ("word word word apple. ".toList)))
        ['x'] =
      trimChars (accumAll [] ((splitSentences (cleanTextOf
          (fun _ => concatAll (List.replicate 30 ("word word word apple. ".toList)))
          ['x'])).take n)) ++ "...".toList ∧
      (n = (splitSentences (cleanTextOf
          (fun _ => concatAll (List.replicate 30 ("word word word apple. ".toList)))
          ['x'])).length ∨
        ∃ s rest, (splitSentences (cleanTextOf
            (fun _ => concatAll (List.replicate 30 ("word word word apple. ".toList)))
            ['x'])).drop n = s :: rest ∧
          400 < (accumAll [] ((splitSentences (cleanTextOf
              (fun _ => concatAll (List.replicate 30 ("word word word apple. ".toList)))
              ['x'])).take n) ++ s).length)) := by
  refine ⟨(c6_normalizer _ ['x']).1, ?_, ?_⟩
  · exact (c6_normalizer (fun _ => "short text.".toList) ['x']).2.1
      (by simp) (by decide)
  · exact (c6_normalizer _ ['x']).2.2 (by simp) (by decide)

/-- C7.  The document normalizer never propagates an exception: for every
input — malformed markup included — and every behaviour of the external
structural converter, `cleanHtmlToText` returns a text (`.ok`), and
whenever the converter fails the returned text is the blunt
strip-all-tags fallback over the preprocessed input, trimmed. -/
theorem c7_never_raises (pre : List Char → List Char)
    (conv : List Char → Except (List Char) (List Char)) (html : List Char) :
    (∃ t, cleanHtmlToText pre conv html = .ok t) ∧
    (∀ e, html ≠ [] → conv (pre html) = .error e →
      cleanHtmlToText pre conv html = .ok (trimChars (stripTags (pre html)))) := by
  constructor
  · by_cases hh : html.isEmpty
    · exact ⟨[], by simp [cleanHtmlToText, hh]⟩
    · rcases hc : conv (pre html) with e | t
      · exact ⟨trimChars (stripTags (pre html)), by simp [cleanHtmlToText, hh, hc]⟩
      · exact ⟨t, by simp [cleanHtmlToText, hh, hc]⟩
  · intro e hne hc
    have hh : html.isEmpty = false := by
      simpa [List.isEmpty_iff] using hne
    simp [cleanHtmlToText, hh, hc]

/-- C7 witness: unclosed, nested malformed markup with a converter that
throws; the result is the stripped, trimmed fallback text. -/
theorem c7_never_raises_witness :
    cleanHtmlToText (fun s => s) (fun _ => .error ("boom".toList))
        ("<div><p>hello <b world".toList) =
      .ok ("hello <b world".toList) := by
  have h := (c7_never_raises (fun s => s) (fun _ => .error ("boom".toList))
    ("<div><p>hello <b world".toList)).2 ("boom".toList) (by decide) rfl
  refine h.trans ?_
  have heq : trimChars (stripTags ("<div><p>hello <b world".toList)) =
      "hello <b world".toList := by
    simp [stripTags, findGt]
    decide
  rw [heq]

/-- C8 counterexample.  The query `()` fails strategy 1 with a validation
error — not a server-side error class (`500` is not in the message) —
yet the top-level chain does not abort: it proceeds to attempt the
degraded simple text search, performing a backend call with
`cql=text ~ ""`, and aggregates both failures. -/
theorem c8_counterexample :
    searchPagesCompact (fun _ => .error ("boom".toList)) (fun s => s) ("()".toList) 10 =
      (.error ("Invalid CQL pattern detected: ()".toList), []) ∧
    containsSub ("500".toList) ("Invalid CQL pattern detected: ()".toList) = false ∧
    advancedSearch (fun _ => .error ("boom".toList)) (fun s => s) ("()".toList) 10 =
      (.error (("All search methods failed: CQL search: " ++
          "Invalid CQL pattern detected: (); Simple search: " ++
          "Simple search also failed: boom").toList),
        ["/content/search?cql=text ~ \"\"&limit=10".toList]) ∧
    (["/content/search?cql=text ~ \"\"&limit=10".toList] : List (List Char)) ≠ [] := by
  decide

/-- C8 (amended).  The only-on-server-error gating holds one level down,
inside the compact CQL strategy: its simple-text fallback is attempted
exactly when the compact attempt's failure message contains `500`, and
any other failure propagates out of `searchPagesCompact` at once with no
fallback call.  A first success terminates the chain with that
strategy's tagged result.  The top-level three-strategy chain, however,
advances past a failed strategy whatever the failure's class. -/
theorem c8_strategy_chain
    (bk : List Char → Except (List Char) Unit) (enc : List Char → List Char)
    (q oq e : List Char) (limit : Nat) :
    (validateAndOptimizeCQL q = .error e → containsSub ("500".toList) e = false →
      searchPagesCompact bk enc q limit = (.error e, [])) ∧
    (validateAndOptimizeCQL q = .ok oq → bk (compactEndpoint enc oq limit) = .error e →
      containsSub ("500".toList) e = false →
      searchPagesCompact bk enc q limit = (.error e, [compactEndpoint enc oq limit])) ∧
    (validateAndOptimizeCQL q = .ok oq → bk (compactEndpoint enc oq limit) = .error e →
      containsSub ("500".toList) e = true →
      (searchPagesCompact bk enc q limit).2 =
        [compactEndpoint enc oq limit, simpleEndpoint enc q limit]) ∧
    (validateAndOptimizeCQL q = .ok oq → bk (compactEndpoint enc oq limit) = .ok () →
      advancedSearch bk enc q limit = (.ok .compact, [compactEndpoint enc oq limit])) ∧
    (validateAndOptimizeCQL q = .error e →
      containsSub ("space".toList) (lowerStr q) = false →
      containsSub ("500".toList) e = false →
      simpleEndpoint enc q limit ∈ (advancedSearch bk enc q limit).2) := by
  refine ⟨?_, ?_, ?_, ?_, ?_⟩
  · intro hv h5
    have h5b : containsSub ['5', '0', '0'] e = false := h5
    simp [searchPagesCompact, hv, h5b]
  · intro hv hbk h5
    have h5b : containsSub ['5', '0', '0'] e = false := h5
    simp [searchPagesCompact, hv, hbk, h5b]
  · intro hv hbk h5
    have h5b : containsSub ['5', '0', '0'] e = true := h5
    simp only [searchPagesCompact, hv, hbk, h5b, if_true]
    rcases hs : searchPagesSimple bk enc q limit with ⟨r, cs⟩
    have hcs : cs = [simpleEndpoint enc q limit] := by
      simp only [searchPagesSimple] at hs
      rcases hbk2 : bk (simpleEndpoint enc q limit) with e2 | u <;>
        rw [hbk2] at hs <;> simp_all
    rcases r with e2 | r <;> simp [hs, hcs, h5b]
  · intro hv hbk
    simp [advancedSearch, searchPagesCompact, hv, hbk]
  · intro hv hsp h5
    have h5b : containsSub ['5', '0', '0'] e = false := h5
    have hc : searchPagesCompact bk enc q limit = (.error e, []) := by
      simp [searchPagesCompact, hv, h5b]
    simp only [advancedSearch, hc, hsp, Bool.false_eq_true, if_false]
    simp only [advancedSearchTail]
    rcases hs : searchPagesSimple bk enc q limit with ⟨r, cs⟩
    have hcs : cs = [simpleEndpoint enc q limit] := by
      simp only [searchPagesSimple] at hs
      rcases hbk2 : bk (simpleEndpoint enc q limit) with e2 | u <;>
        rw [hbk2] at hs <;> simp_all
    rcases r with e2 | r <;> simp [hcs]

/-- C8 witness: the validation failure of `()` propagates with no call,
and the top-level chain still attempts the simple search for it. -/
theorem c8_strategy_chain_witness :
    searchPagesCompact (fun _ => .error ("boom".toList)) (fun s => s) ("()".toList) 10 =
      (.error ("Invalid CQL pattern detected: ()".toList), []) ∧
    simpleEndpoint (fun s => s) ("()".toList) 10 ∈
      (advancedSearch (fun _ => .error ("boom".toList)) (fun s => s) ("()".toList) 10).2 := by
  have h := c8_strategy_chain (fun _ => .error ("boom".toList)) (fun s => s)
    ("()".toList) [] ("Invalid CQL pattern detected: ()".toList) 10
  exact ⟨h.1 (by decide) (by decide),
    h.2.2.2.2 (by decide) (by decide) (by decide)⟩
